import Mathlib

/-!
Verification development for the MO-reallocation transfer recommendation engine
(`business_logic.py`).  The Python data frames are embedded as lists of records;
pandas column assignments become record fields, boolean-mask filters become
`List.filter`, and the in-place mutation of candidate quantities during matching
becomes explicit state passing.  Machine integers are modelled as `Nat` (input
columns, which the data processor coerces to non-negative numbers) and `Int`
(the mutable working quantities, which the matching loop decrements).

The float arithmetic `total * 0.4` / `total * 0.8` in the classifiers is
modelled by the exact values `2 * total / 5` and `4 * total / 5`: the source
feeds non-negative integers to these products and immediately floors the
result, and for every representable input the IEEE-754 double rounding of
`total * 0.4` (resp. `0.8`) floors to the same integer as the exact rational.
-/

namespace MORealloc

/-- `TransferType` enum of `business_logic.py`. -/
inductive TransferType where
  | ND_TRANSFER
  | RF_SURPLUS_TRANSFER
  | RF_ENHANCED_TRANSFER
  | C_COMPLETE_TRANSFER
deriving DecidableEq, Repr

/-- `ReceivePriority` enum of `business_logic.py`. -/
inductive ReceivePriority where
  | URGENT_SHORTAGE
  | POTENTIAL_SHORTAGE
deriving DecidableEq, Repr

/-- One row of the classified stock data frame (columns produced by the data
processor: `Article`, `Article Description`, `OM`, `RP Type`, `Site`, `MOQ`,
`SaSa Net Stock`, `Pending Received`, `Safety Stock`, `Last Month Sold Qty`,
`MTD Sold Qty`).  Numeric columns are non-negative by the data processor's
cleaning step. -/
structure StockRow where
  article : String
  articleDescription : String
  om : String
  rpType : String
  site : String
  moq : Nat
  sasaNetStock : Nat
  pendingReceived : Nat
  safetyStock : Nat
  lastMonthSoldQty : Nat
  mtdSoldQty : Nat
deriving DecidableEq, Repr

/-- `Effective Sold Qty = Last Month Sold Qty + MTD Sold Qty`
(`DataTransformer.calculate_effective_sold_qty`). -/
def effectiveSoldQty (r : StockRow) : Nat :=
  r.lastMonthSoldQty + r.mtdSoldQty

/-- A transfer-out candidate row: the stock row plus the columns
`transfer_type`, `available_quantity` (mutable during matching) and
`original_stock` (immutable snapshot of `SaSa Net Stock`). -/
structure TransferCandidate where
  row : StockRow
  transferType : TransferType
  availableQuantity : Int
  originalStock : Int
deriving DecidableEq, Repr

/-- A receive-in candidate row: the stock row plus the columns
`receive_priority`, `demand_quantity` (mutable during matching) and
`original_stock`. -/
structure ReceiveCandidate where
  row : StockRow
  receivePriority : ReceivePriority
  demandQuantity : Int
  originalStock : Int
deriving DecidableEq, Repr

/-- The RF rows of the data frame (`df[df['RP Type'] == 'RF']`). -/
def rfRows (df : List StockRow) : List StockRow :=
  df.filter (fun r => r.rpType == "RF")

/-- `groupby('Article')['Effective Sold Qty'].transform('max')` over a list of
RF rows: the per-article maximum of the effective sold quantity. -/
def maxSoldPerArticle (rf : List StockRow) (a : String) : Nat :=
  ((rf.filter (fun r => r.article == a)).map effectiveSoldQty).foldr max 0

/-- `groupby(['OM', 'Article'])['Effective Sold Qty'].transform('min')` used by
mode C: the per-(OM, Article) minimum of the effective sold quantity (`none`
when the group is empty, which cannot happen for a row of the group). -/
def minSoldInOmArticle (rows : List StockRow) (om a : String) : Option Nat :=
  ((rows.filter (fun r => r.om == om && r.article == a)).map effectiveSoldQty).min?

/-- Whether a row's effective sold quantity equals the minimum of its
(OM, Article) group within `rows` (the mode C `min_sold_in_om_article` test). -/
def isGroupMinSold (rows : List StockRow) (r : StockRow) : Bool :=
  match minSoldInOmArticle rows r.om r.article with
  | some m => effectiveSoldQty r == m
  | none => false

/-- `TransferModeA.identify_nd_transfer_candidates` (also used verbatim by
mode B): every ND row with positive net stock, transferring its full stock. -/
def identifyNdTransferCandidates (df : List StockRow) : List TransferCandidate :=
  (((df.filter (fun r => r.rpType == "ND")).map (fun r =>
      { row := r
        transferType := TransferType.ND_TRANSFER
        availableQuantity := (r.sasaNetStock : Int)
        originalStock := (r.sasaNetStock : Int) })).filter
    (fun t => decide (0 < t.availableQuantity)))

/-- `TransferModeA.identify_rf_surplus_transfer_candidates`: RF rows with
`net + pending > safety` that are not the article's best seller; the available
quantity is `min (total - safety) (max (floor (total * 0.4)) 2)` clamped to the
net stock, and the row is kept only when the remaining stock stays at or above
the safety stock and the quantity is positive. -/
def identifyRfSurplusTransferCandidates (df : List StockRow) : List TransferCandidate :=
  let rf := rfRows df
  let elig := rf.filter (fun r =>
    decide (r.safetyStock < r.sasaNetStock + r.pendingReceived) &&
    decide (effectiveSoldQty r < maxSoldPerArticle rf r.article))
  let cands := elig.map (fun r =>
    let total : Nat := r.sasaNetStock + r.pendingReceived
    -- basic_transferable = total - safety (positive by the eligibility filter)
    let basic : Nat := total - r.safetyStock
    -- upper_limit = max(total * 0.4, 2), floored (exact model of the float)
    let upper : Nat := max (2 * total / 5) 2
    let calcq : Nat := min basic upper
    { row := r
      transferType := TransferType.RF_SURPLUS_TRANSFER
      availableQuantity := (min calcq r.sasaNetStock : Nat)
      originalStock := (r.sasaNetStock : Int) })
  let valid := cands.filter (fun t =>
    decide ((t.row.safetyStock : Int) ≤
      (t.row.sasaNetStock : Int) + (t.row.pendingReceived : Int) - t.availableQuantity))
  valid.filter (fun t => decide (0 < t.availableQuantity))

/-- `TransferModeB.identify_rf_transfer_candidates`: like mode A but with the
MOQ as floor, an 80% cap, and the transfer type depending on whether the
remaining stock stays above the safety stock. -/
def identifyRfTransferCandidatesB (df : List StockRow) : List TransferCandidate :=
  let rf := rfRows df
  let elig := rf.filter (fun r =>
    decide (r.moq < r.sasaNetStock + r.pendingReceived) &&
    decide (effectiveSoldQty r < maxSoldPerArticle rf r.article))
  let cands := elig.map (fun r =>
    let total : Nat := r.sasaNetStock + r.pendingReceived
    -- basic_transferable = total - moq (positive by the eligibility filter)
    let basic : Nat := total - r.moq
    -- upper_limit = max(total * 0.8, 2), floored (exact model of the float)
    let upper : Nat := max (4 * total / 5) 2
    let calcq : Nat := min basic upper
    let avail : Nat := min calcq r.sasaNetStock
    { row := r
      transferType :=
        if r.safetyStock ≤ total - avail then TransferType.RF_SURPLUS_TRANSFER
        else TransferType.RF_ENHANCED_TRANSFER
      availableQuantity := (avail : Int)
      originalStock := (r.sasaNetStock : Int) })
  cands.filter (fun t => decide (0 < t.availableQuantity))

/-- `TransferModeC.identify_nd_transfer_candidates`: ND rows whose effective
sold quantity is the minimum of their (OM, Article) group; they transfer their
full net stock (no zero-sales requirement is applied to ND rows). -/
def identifyNdTransferCandidatesC (df : List StockRow) : List TransferCandidate :=
  let nd := df.filter (fun r => r.rpType == "ND")
  let mins := nd.filter (fun r => isGroupMinSold nd r)
  ((mins.map (fun r =>
      { row := r
        transferType := TransferType.ND_TRANSFER
        availableQuantity := (r.sasaNetStock : Int)
        originalStock := (r.sasaNetStock : Int) })).filter
    (fun t => decide (0 < t.availableQuantity)))

/-- `TransferModeC.identify_rf_transfer_candidates`: RF rows that are the
(OM, Article) sales minimum; rows with positive sales are dropped, rows with
zero sales transfer their full net stock as `C_COMPLETE_TRANSFER`. -/
def identifyRfTransferCandidatesC (df : List StockRow) : List TransferCandidate :=
  let rf := rfRows df
  let mins := rf.filter (fun r => isGroupMinSold rf r)
  let zeros := mins.filter (fun r => effectiveSoldQty r == 0)
  ((zeros.map (fun r =>
      { row := r
        transferType := TransferType.C_COMPLETE_TRANSFER
        availableQuantity := (r.sasaNetStock : Int)
        originalStock := (r.sasaNetStock : Int) })).filter
    (fun t => decide (0 < t.availableQuantity)))

/-- `ReceiveRules.identify_urgent_shortage_candidates`: RF rows with
`net + pending == 0` and positive sales; the demand is the safety stock. -/
def identifyUrgentShortageCandidates (df : List StockRow) : List ReceiveCandidate :=
  ((rfRows df).filter (fun r =>
    decide (r.sasaNetStock + r.pendingReceived = 0) &&
    decide (0 < effectiveSoldQty r))).map (fun r =>
      { row := r
        receivePriority := ReceivePriority.URGENT_SHORTAGE
        demandQuantity := (r.safetyStock : Int)
        originalStock := (r.sasaNetStock : Int) })

/-- `ReceiveRules.identify_potential_shortage_candidates`: RF rows with
`net + pending < safety` whose effective sold quantity equals the per-article
maximum; the demand is `safety - (net + pending)`. -/
def identifyPotentialShortageCandidates (df : List StockRow) : List ReceiveCandidate :=
  let rf := rfRows df
  (rf.filter (fun r =>
    decide (r.sasaNetStock + r.pendingReceived < r.safetyStock) &&
    decide (effectiveSoldQty r = maxSoldPerArticle rf r.article))).map (fun r =>
      { row := r
        receivePriority := ReceivePriority.POTENTIAL_SHORTAGE
        demandQuantity := (r.safetyStock : Int) -
          ((r.sasaNetStock : Int) + (r.pendingReceived : Int))
        originalStock := (r.sasaNetStock : Int) })

/-! ### Matching engine (`MatchingAlgorithm`) -/

/-- The two-character site group prefix (`site[:2] if len(site) >= 2 else ""`). -/
def sitePrefix (s : String) : String :=
  if 2 ≤ s.length then s.take 2 else ""

/-- `MatchingAlgorithm.can_transfer_between_sites`: an HD site must never ship
to an HA/HB/HC site; everything else is allowed. -/
def canTransferBetweenSites (transferSite receiveSite : String) : Bool :=
  let tp := sitePrefix transferSite
  let rp := sitePrefix receiveSite
  !(tp == "HD" && (rp == "HA" || rp == "HB" || rp == "HC"))

/-- `MatchingAlgorithm.check_om_restriction`: a transfer between two HA/HB/HC
sites requires the receive site's OM (looked up as the first matching row of
the receive-candidate frame) to equal the transfer site's OM. -/
def checkOmRestriction (transferOm transferSite receiveSite : String)
    (receiveCandidates : List ReceiveCandidate) : Bool :=
  let tp := sitePrefix transferSite
  let rp := sitePrefix receiveSite
  if (tp == "HA" || tp == "HB" || tp == "HC") && (rp == "HA" || rp == "HB" || rp == "HC") then
    match (receiveCandidates.filter (fun c => c.row.site == receiveSite)).head? with
    | some c => transferOm == c.row.om
    | none => true
  else true

/-- `MatchingAlgorithm.MATCHING_PRIORITY`: the fixed priority order over
(transfer type, receive priority) pairs. -/
def MATCHING_PRIORITY : List (TransferType × ReceivePriority) :=
  [(TransferType.ND_TRANSFER, ReceivePriority.URGENT_SHORTAGE),
   (TransferType.ND_TRANSFER, ReceivePriority.POTENTIAL_SHORTAGE),
   (TransferType.RF_SURPLUS_TRANSFER, ReceivePriority.URGENT_SHORTAGE),
   (TransferType.RF_SURPLUS_TRANSFER, ReceivePriority.POTENTIAL_SHORTAGE),
   (TransferType.RF_ENHANCED_TRANSFER, ReceivePriority.URGENT_SHORTAGE),
   (TransferType.RF_ENHANCED_TRANSFER, ReceivePriority.POTENTIAL_SHORTAGE),
   (TransferType.C_COMPLETE_TRANSFER, ReceivePriority.URGENT_SHORTAGE),
   (TransferType.C_COMPLETE_TRANSFER, ReceivePriority.POTENTIAL_SHORTAGE)]

/-- The string value of the `TransferType` enum member. -/
def transferTypeValue : TransferType → String
  | TransferType.ND_TRANSFER => "ND轉出"
  | TransferType.RF_SURPLUS_TRANSFER => "RF過剩轉出"
  | TransferType.RF_ENHANCED_TRANSFER => "RF加強轉出"
  | TransferType.C_COMPLETE_TRANSFER => "C模式全量轉出"

/-- The string value of the `ReceivePriority` enum member. -/
def receivePriorityValue : ReceivePriority → String
  | ReceivePriority.URGENT_SHORTAGE => "緊急缺貨"
  | ReceivePriority.POTENTIAL_SHORTAGE => "潛在缺貨"

/-- One transfer recommendation, the dictionary built by
`MatchingAlgorithm.create_recommendation`. -/
structure Recommendation where
  article : String
  productDesc : String
  transferOM : String
  transferSite : String
  receiveOM : String
  receiveSite : String
  transferQty : Int
  transferSiteOriginalStock : Int
  transferSiteAfterTransferStock : Int
  transferSiteSafetyStock : Nat
  transferSiteMOQ : Nat
  transferSiteLastMonthSoldQty : Nat
  transferSiteMTDSoldQty : Nat
  receiveSiteLastMonthSoldQty : Nat
  receiveSiteMTDSoldQty : Nat
  receiveOriginalStock : Int
  remark : String
  notes : String
deriving DecidableEq, Repr

/-- `MatchingAlgorithm.create_recommendation`.  The rationale strings follow
the source's f-strings; the float cap `max(total * 0.4, 2)` (resp. `0.8`)
printed inside the audit text is rendered with its integer floor, all other
interpolated numbers are the exact integers the source computes. -/
def createRecommendation (t : TransferCandidate) (r : ReceiveCandidate)
    (transferQty : Int) : Recommendation :=
  let transferAfterStock := t.originalStock - transferQty
  let transferSiteType := sitePrefix t.row.site
  let receiveSiteType := sitePrefix r.row.site
  let transferTypeDesc := transferTypeValue t.transferType
  let remark :=
    match t.transferType with
    | TransferType.ND_TRANSFER =>
        if transferSiteType == "HD" then "ND轉出 → HD店鋪：澳門優先，HD店鋪為主要目標"
        else s!"ND轉出 → {receiveSiteType}店鋪：標準轉出"
    | TransferType.RF_SURPLUS_TRANSFER =>
        if receiveSiteType == "HD" then "RF過剩轉出 → HD店鋪：澳門優先，庫存充足轉出"
        else s!"RF過剩轉出 → {receiveSiteType}店鋪：標準轉出"
    | TransferType.RF_ENHANCED_TRANSFER =>
        if receiveSiteType == "HD" then "RF加強轉出 → HD店鋪：澳門優先，加強轉出支援"
        else s!"RF加強轉出 → {receiveSiteType}店鋪：標準加強轉出"
    | TransferType.C_COMPLETE_TRANSFER =>
        if receiveSiteType == "HD" then "C模式全量轉出 → HD店鋪：澳門優先，全量轉出支援"
        else s!"C模式全量轉出 → {receiveSiteType}店鋪：標準全量轉出"
  let transferLogicCalc : String × String :=
    match t.transferType with
    | TransferType.ND_TRANSFER =>
        ("ND店鋪轉出：ND類型店鋪可轉出全部淨庫存，適合關閉或調整店鋪", "轉出數量 = 全部淨庫存")
    | TransferType.RF_SURPLUS_TRANSFER =>
        let total : Nat := t.row.sasaNetStock + t.row.pendingReceived
        let basic : Int := (total : Int) - t.row.safetyStock
        let upper : Nat := max (2 * total / 5) 2
        ("RF過剩轉出：庫存充足的RF店鋪，轉出後剩餘庫存不低於安全庫存",
         s!"轉出數量 = min(基礎可轉出{basic}, 上限控制{upper})")
    | TransferType.RF_ENHANCED_TRANSFER =>
        let total : Nat := t.row.sasaNetStock + t.row.pendingReceived
        let basic : Int := (total : Int) - t.row.moq
        let upper : Nat := max (4 * total / 5) 2
        ("RF加強轉出：庫存超過MOQ的RF店鋪，轉出後可能低於安全庫存",
         s!"轉出數量 = min(基礎可轉出{basic}, 上限控制{upper})")
    | TransferType.C_COMPLETE_TRANSFER =>
        ("C模式全量轉出：同OM同Article中銷量最少的店鋪可轉出全部庫存",
         "轉出數量 = 全部淨庫存（銷量為0的店鋪）")
  let receiveLogicCalc : String × String :=
    match r.receivePriority with
    | ReceivePriority.URGENT_SHORTAGE =>
        let logic := "緊急缺貨補貨：完全無庫存+在途且曾有銷售記錄的RF店鋪"
        (if receiveSiteType == "HD" then logic ++ "，澳門優先：HD店鋪為重點補貨對象" else logic,
         s!"需求數量 = 安全庫存 {t.row.safetyStock}")
    | ReceivePriority.POTENTIAL_SHORTAGE =>
        let totalStock : Nat := r.row.sasaNetStock + r.row.pendingReceived
        let demandQty : Int := (t.row.safetyStock : Int) - totalStock
        let logic := "潛在缺貨補貨：庫存不足且有效銷量為最高值的RF店鋪"
        (if receiveSiteType == "HD" then logic ++ "，澳門優先：HD店鋪為重點補貨對象" else logic,
         s!"需求數量 = 安全庫存 {t.row.safetyStock} - 總庫存 {totalStock} = {demandQty}")
  let macauPriority :=
    if receiveSiteType == "HD" || transferSiteType == "HD" then
      "澳門優先：HD店鋪為澳門地區重點支援對象，優先考慮其庫存需求和銷售特點"
    else "標準調貨：按常規優先級處理"
  let notes := s!"{transferTypeDesc} → {receivePriorityValue r.receivePriority} | {transferLogicCalc.1} | {receiveLogicCalc.2} | {transferLogicCalc.2} | {macauPriority}"
  { article := t.row.article
    productDesc := t.row.articleDescription
    transferOM := t.row.om
    transferSite := t.row.site
    receiveOM := r.row.om
    receiveSite := r.row.site
    transferQty := transferQty
    transferSiteOriginalStock := t.originalStock
    transferSiteAfterTransferStock := transferAfterStock
    transferSiteSafetyStock := t.row.safetyStock
    transferSiteMOQ := t.row.moq
    transferSiteLastMonthSoldQty := t.row.lastMonthSoldQty
    transferSiteMTDSoldQty := t.row.mtdSoldQty
    receiveSiteLastMonthSoldQty := r.row.lastMonthSoldQty
    receiveSiteMTDSoldQty := r.row.mtdSoldQty
    receiveOriginalStock := r.originalStock
    remark := remark
    notes := notes }

/-- The quantity computation of one matching attempt
(`business_logic.py` lines 497-530): eligibility checks, then
`qty = min(available, demand)` clamped to the transfer row's `SaSa Net Stock`,
skipped when non-positive, then the 1-to-2 rounding bump. -/
def tryMatch (t : TransferCandidate) (r : ReceiveCandidate)
    (articleReceive : List ReceiveCandidate) : Option Int :=
  if !canTransferBetweenSites t.row.site r.row.site then none
  else if !checkOmRestriction t.row.om t.row.site r.row.site articleReceive then none
  else
    let q1 : Int := min (min t.availableQuantity r.demandQuantity) (t.row.sasaNetStock : Int)
    if q1 ≤ 0 then none
    else if q1 = 1 ∧ 2 ≤ t.availableQuantity ∧ 2 ≤ (t.row.sasaNetStock : Int) ∧
        2 ≤ r.demandQuantity then some 2
    else some q1

/-- One committed match: the position of the receive candidate in the global
receive list, the committed quantity, and the emitted recommendation. -/
structure MatchStep where
  rIdx : Nat
  qty : Int
  recommendation : Recommendation
deriving DecidableEq, Repr

/-- The demand of the receive candidate at a position (0 outside the list). -/
def demandAt (rs : List ReceiveCandidate) (j : Nat) : Int :=
  match rs[j]? with
  | some r => r.demandQuantity
  | none => 0

/-- The positions of the receive candidates of one article and priority,
sorted by demand in descending order (the
`current_receive.sort_values(by='demand_quantity', ascending=False)` step;
ties keep the original row order). -/
def receiveOrder (a : String) (rp : ReceivePriority) (rs : List ReceiveCandidate) : List Nat :=
  let idxs := (List.range rs.length).filter (fun j =>
    match rs[j]? with
    | some r => r.row.article == a && r.receivePriority == rp
    | none => false)
  List.insertionSort (fun j k => demandAt rs k ≤ demandAt rs j) idxs

/-- The inner receive loop (`for _, receive_row in current_receive_sorted`):
attempt each receive position in turn, committing quantities and stopping when
the transfer candidate's available quantity reaches 0. -/
def matchReceives (a : String) (t : TransferCandidate) (order : List Nat)
    (rs : List ReceiveCandidate) :
    TransferCandidate × List ReceiveCandidate × List MatchStep :=
  match order with
  | [] => (t, rs, [])
  | j :: rest =>
    match rs[j]? with
    | none => matchReceives a t rest rs
    | some r =>
      match tryMatch t r (rs.filter (fun c => c.row.article == a)) with
      | none => matchReceives a t rest rs
      | some qty =>
        let t' : TransferCandidate :=
          { t with availableQuantity := t.availableQuantity - qty }
        let rs' := rs.set j { r with demandQuantity := r.demandQuantity - qty }
        let step : MatchStep := ⟨j, qty, createRecommendation t r qty⟩
        if t'.availableQuantity ≤ 0 then (t', rs', [step])
        else
          let res := matchReceives a t' rest rs'
          (res.1, res.2.1, step :: res.2.2)

/-- The walk over `MATCHING_PRIORITY` for one transfer candidate. -/
def matchPriorities (a : String) (t : TransferCandidate)
    (prios : List (TransferType × ReceivePriority)) (rs : List ReceiveCandidate) :
    TransferCandidate × List ReceiveCandidate × List MatchStep :=
  match prios with
  | [] => (t, rs, [])
  | (tt, rp) :: rest =>
    if t.transferType ≠ tt then matchPriorities a t rest rs
    else
      let order := receiveOrder a rp rs
      if order.isEmpty then matchPriorities a t rest rs
      else
        let res1 := matchReceives a t order rs
        let res2 := matchPriorities a res1.1 rest res1.2.1
        (res2.1, res2.2.1, res1.2.2 ++ res2.2.2)

/-- The remaining article-wide demand
(`article_receive['demand_quantity'].sum()`). -/
def articleDemandSum (a : String) (rs : List ReceiveCandidate) : Int :=
  ((rs.filter (fun c => c.row.article == a)).map (·.demandQuantity)).sum

/-- The history of one transfer candidate through the matching loop: its value
at classification time, its final value, and its committed matches. -/
structure TransferTrace where
  init : TransferCandidate
  final : TransferCandidate
  steps : List MatchStep
deriving DecidableEq, Repr

/-- The outer loop over one article's transfer candidates (in sorted order),
stopping once no article-wide demand remains. -/
def matchTransfers (a : String) (pending : List TransferCandidate)
    (rs : List ReceiveCandidate) : List ReceiveCandidate × List TransferTrace :=
  match pending with
  | [] => (rs, [])
  | t :: rest =>
    if articleDemandSum a rs ≤ 0 then
      (rs, (t :: rest).map (fun u => ⟨u, u, []⟩))
    else
      let res1 := matchPriorities a t MATCHING_PRIORITY rs
      let res2 := matchTransfers a rest res1.2.1
      (res2.1, ⟨t, res1.1, res1.2.2⟩ :: res2.2)

/-- First-appearance deduplication (`transfer_candidates['Article'].unique()`). -/
def uniqueFirstAux (seen : List String) : List String → List String
  | [] => []
  | a :: rest =>
    if a ∈ seen then uniqueFirstAux seen rest
    else a :: uniqueFirstAux (a :: seen) rest

/-- The distinct articles of the transfer candidates, in order of first
appearance. -/
def uniqueArticles (ts : List TransferCandidate) : List String :=
  uniqueFirstAux [] (ts.map (fun t => t.row.article))

/-- The per-article loop of `MatchingAlgorithm.execute_matching`: filter both
candidate frames down to one article, choose the transfer ordering (ascending
by effective sold quantity when supply exceeds demand, ties keeping the
original row order, otherwise the classification order), and run the matching
loop, threading the global receive candidate state. -/
def executeMatchingAux (ts : List TransferCandidate) (articles : List String)
    (rs : List ReceiveCandidate) : List ReceiveCandidate × List TransferTrace :=
  match articles with
  | [] => (rs, [])
  | a :: rest =>
    let articleTransfer := ts.filter (fun t => t.row.article == a)
    let articleReceive := rs.filter (fun c => c.row.article == a)
    if articleTransfer.isEmpty || articleReceive.isEmpty then
      executeMatchingAux ts rest rs
    else
      let totalAvailable := (articleTransfer.map (fun t => t.availableQuantity)).sum
      let totalDemand := (articleReceive.map (fun c => c.demandQuantity)).sum
      let sorted :=
        if totalDemand < totalAvailable then
          List.insertionSort
            (fun t u => effectiveSoldQty t.row ≤ effectiveSoldQty u.row) articleTransfer
        else articleTransfer
      let res1 := matchTransfers a sorted rs
      let res2 := executeMatchingAux ts rest res1.1
      (res2.1, res1.2 ++ res2.2)

/-- `MatchingAlgorithm.execute_matching` with its full final state: the final
receive candidate list and the per-transfer-candidate traces. -/
def executeMatchingFull (ts : List TransferCandidate) (rs : List ReceiveCandidate) :
    List ReceiveCandidate × List TransferTrace :=
  if ts.isEmpty || rs.isEmpty then (rs, [])
  else executeMatchingAux ts (uniqueArticles ts) rs

/-- The traces produced by `MatchingAlgorithm.execute_matching`. -/
def executeMatchingTrace (ts : List TransferCandidate) (rs : List ReceiveCandidate) :
    List TransferTrace :=
  (executeMatchingFull ts rs).2

/-- `MatchingAlgorithm.execute_matching`: the emitted recommendation list, in
emission order. -/
def executeMatching (ts : List TransferCandidate) (rs : List ReceiveCandidate) :
    List Recommendation :=
  (executeMatchingTrace ts rs).flatMap (fun tr => tr.steps.map (fun m => m.recommendation))

/-! ### Quality checker, statistics and entry point -/

/-- The error accumulation of `QualityChecker.check_recommendations`, with the
1-based recommendation number carried through.  Each recommendation contributes
one message per violated invariant: non-positive transfer quantity, quantity
above the original stock, identical sites, article not 12 characters long.
(The source's coercion of a non-integer `Transfer Qty` cannot arise here:
`transferQty` is an integer by type.) -/
def checkRecommendationsAux (i : Nat) : List Recommendation → List String
  | [] => []
  | r :: rest =>
    (if r.transferQty ≤ 0 then [s!"建議{i+1}: Transfer Qty必須為正整數"] else []) ++
    (if r.transferSiteOriginalStock < r.transferQty then
        [s!"建議{i+1}: Transfer Qty超過轉出店鋪原始庫存"] else []) ++
    (if r.transferSite == r.receiveSite then
        [s!"建議{i+1}: 轉出店鋪和接收店鋪不能相同"] else []) ++
    (if r.article.length ≠ 12 then [s!"建議{i+1}: Article必須是12位文本格式"] else []) ++
    checkRecommendationsAux (i + 1) rest

/-- `QualityChecker.check_recommendations`: `(is_valid, errors)`. -/
def checkRecommendations (recs : List Recommendation) : Bool × List String :=
  ((checkRecommendationsAux 0 recs).isEmpty, checkRecommendationsAux 0 recs)

/-- The aggregated statistics (`BusinessLogic.generate_statistics`); the two
per-group maps are association lists in key insertion order, each value a
(count, summed quantity) pair. -/
structure Statistics where
  totalRecommendations : Nat
  totalTransferQuantity : Int
  uniqueArticles : Nat
  uniqueTransferSites : Nat
  uniqueReceiveSites : Nat
  transferTypeStats : List (String × Nat × Int)
  receivePriorityStats : List (String × Nat × Int)
deriving DecidableEq, Repr

/-- The all-zero statistics returned for an empty recommendation list. -/
def zeroStatistics : Statistics :=
  { totalRecommendations := 0
    totalTransferQuantity := 0
    uniqueArticles := 0
    uniqueTransferSites := 0
    uniqueReceiveSites := 0
    transferTypeStats := []
    receivePriorityStats := [] }

/-- Add one observation to a grouped (count, quantity) association list,
keeping insertion order as a Python dict does. -/
def bumpStat (key : String) (q : Int) : List (String × Nat × Int) → List (String × Nat × Int)
  | [] => [(key, 1, q)]
  | (k, c, s) :: rest =>
    if k == key then (k, c + 1, s + q) :: rest
    else (k, c, s) :: bumpStat key q rest

/-- The receive-priority grouping key of `generate_statistics`:
`rec['Notes'].split(' → ')[1] if ' → ' in rec['Notes'] else '未知'` (everything
after the first arrow, not just the priority label). -/
def notesKey (notes : String) : String :=
  ((notes.splitOn " → ").drop 1).head?.getD "未知"

/-- `BusinessLogic.generate_statistics`. -/
def generateStatistics (recs : List Recommendation) : Statistics :=
  if recs.isEmpty then zeroStatistics
  else
    { totalRecommendations := recs.length
      totalTransferQuantity := (recs.map (fun r => r.transferQty)).sum
      uniqueArticles := ((recs.map (fun r => r.article)).dedup).length
      uniqueTransferSites := ((recs.map (fun r => r.transferSite)).dedup).length
      uniqueReceiveSites := ((recs.map (fun r => r.receiveSite)).dedup).length
      transferTypeStats :=
        recs.foldl (fun acc r => bumpStat r.remark r.transferQty acc) []
      receivePriorityStats :=
        recs.foldl (fun acc r => bumpStat (notesKey r.notes) r.transferQty acc) [] }

/-- The result triple of `generate_transfer_recommendations`: either
`(True, recommendations, stats)` or `(False, error message, {})`. -/
inductive GenResult where
  | ok (recommendations : List Recommendation) (stats : Statistics)
  | error (msg : String)
deriving DecidableEq, Repr

/-- The success flag of the result triple. -/
def GenResult.isOk : GenResult → Bool
  | GenResult.ok _ _ => true
  | GenResult.error _ => false

/-- The recommendation list of a successful result (`[]` on error). -/
def GenResult.recommendations : GenResult → List Recommendation
  | GenResult.ok recs _ => recs
  | GenResult.error _ => []

/-- The transfer-out candidates assembled for a mode
(`nd_transfer_candidates` concatenated with `rf_transfer_candidates`). -/
def transferCandidatesFor (df : List StockRow) (mode : String) : List TransferCandidate :=
  if mode == "A" then
    identifyNdTransferCandidates df ++ identifyRfSurplusTransferCandidates df
  else if mode == "B" then
    identifyNdTransferCandidates df ++ identifyRfTransferCandidatesB df
  else
    identifyNdTransferCandidatesC df ++ identifyRfTransferCandidatesC df

/-- The receive-in candidates (urgent concatenated with potential). -/
def receiveCandidatesAll (df : List StockRow) : List ReceiveCandidate :=
  identifyUrgentShortageCandidates df ++ identifyPotentialShortageCandidates df

/-- The invalid-mode error message. -/
def invalidModeMsg : String := "不支持的轉貨模式，請選擇A、B或C"

/-- The quality-check failure message over the enumerated error list. -/
def qualityFailureMsg (errors : List String) : String :=
  "質量檢查失敗: " ++ String.intercalate "; " errors

/-- `BusinessLogic.generate_transfer_recommendations`: reject an invalid mode
before any classification, otherwise classify, match, quality-check (failing
the whole batch on any violation) and aggregate statistics. -/
def generateTransferRecommendations (df : List StockRow) (mode : String) : GenResult :=
  if mode ≠ "A" ∧ mode ≠ "B" ∧ mode ≠ "C" then GenResult.error invalidModeMsg
  else if (checkRecommendations (executeMatching (transferCandidatesFor df mode)
      (receiveCandidatesAll df))).1 then
    GenResult.ok (executeMatching (transferCandidatesFor df mode) (receiveCandidatesAll df))
      (generateStatistics (executeMatching (transferCandidatesFor df mode)
        (receiveCandidatesAll df)))
  else
    GenResult.error (qualityFailureMsg (checkRecommendations (executeMatching
      (transferCandidatesFor df mode) (receiveCandidatesAll df))).2)

/-! ### Matching-loop invariants -/

/-- Total quantity committed by a list of match steps. -/
def stepsQtySum (ms : List MatchStep) : Int :=
  (ms.map (fun m => m.qty)).sum

/-- Total quantity committed against the receive candidate at position `j`. -/
def stepsQtySumAt (j : Nat) (ms : List MatchStep) : Int :=
  ((ms.filter (fun m => m.rIdx == j)).map (fun m => m.qty)).sum

/-- Total quantity committed against position `j` over a list of traces. -/
def tracesQtySumAt (j : Nat) (trs : List TransferTrace) : Int :=
  (trs.map (fun tr => stepsQtySumAt j tr.steps)).sum

@[simp] theorem stepsQtySum_nil : stepsQtySum [] = 0 := rfl

@[simp] theorem stepsQtySum_cons (m : MatchStep) (ms : List MatchStep) :
    stepsQtySum (m :: ms) = m.qty + stepsQtySum ms := rfl

@[simp] theorem stepsQtySum_append (ms₁ ms₂ : List MatchStep) :
    stepsQtySum (ms₁ ++ ms₂) = stepsQtySum ms₁ + stepsQtySum ms₂ := by
  simp [stepsQtySum]

@[simp] theorem stepsQtySumAt_nil (j : Nat) : stepsQtySumAt j [] = 0 := rfl

theorem stepsQtySumAt_cons (j : Nat) (m : MatchStep) (ms : List MatchStep) :
    stepsQtySumAt j (m :: ms) =
      (if m.rIdx == j then m.qty else 0) + stepsQtySumAt j ms := by
  by_cases h : m.rIdx == j <;> simp [stepsQtySumAt, List.filter_cons, h]

@[simp] theorem stepsQtySumAt_append (j : Nat) (ms₁ ms₂ : List MatchStep) :
    stepsQtySumAt j (ms₁ ++ ms₂) = stepsQtySumAt j ms₁ + stepsQtySumAt j ms₂ := by
  simp [stepsQtySumAt]

/-- `r` agrees with some member of `rs` on every field except possibly the
(mutable) demand quantity. -/
def skelMem (rs : List ReceiveCandidate) (r : ReceiveCandidate) : Prop :=
  ∃ r0 ∈ rs, r = { r0 with demandQuantity := r.demandQuantity }

/-- Everything the emission of one match step guarantees, relative to the
transfer candidate `t0` and receive list `rs0` in effect when the step's
enclosing loop was entered: the recommendation was built by
`createRecommendation` from `t0` (at some intermediate available quantity `a`)
and a demand-evolved member of `rs0`, the quantity is positive, bounded by `a`,
by the receive side's demand at commit time, and by the transfer row's
`SaSa Net Stock`, and the site-precedence predicate held. -/
def stepFrom (t0 : TransferCandidate) (rs0 : List ReceiveCandidate) (m : MatchStep) : Prop :=
  ∃ (a : Int) (r : ReceiveCandidate),
    skelMem rs0 r ∧
    m.recommendation = createRecommendation { t0 with availableQuantity := a } r m.qty ∧
    0 < m.qty ∧ m.qty ≤ a ∧ a ≤ t0.availableQuantity ∧ m.qty ≤ r.demandQuantity ∧
    m.qty ≤ (t0.row.sasaNetStock : Int) ∧
    canTransferBetweenSites t0.row.site r.row.site = true

theorem skelMem_of_mem {rs : List ReceiveCandidate} {r : ReceiveCandidate}
    (h : r ∈ rs) : skelMem rs r :=
  ⟨r, h, rfl⟩

theorem skelMem_set {rs : List ReceiveCandidate} {j : Nat} {r0 v r : ReceiveCandidate}
    (h0 : r0 ∈ rs) (hv : v = { r0 with demandQuantity := v.demandQuantity })
    (h : skelMem (rs.set j v) r) : skelMem rs r := by
  obtain ⟨r1, h1, hr⟩ := h
  rcases List.mem_or_eq_of_mem_set h1 with h1' | rfl
  · exact ⟨r1, h1', hr⟩
  · exact ⟨r0, h0, by rw [hr, hv]⟩

theorem stepFrom_mono_t {t t' : TransferCandidate} {rs : List ReceiveCandidate}
    {m : MatchStep} (ht : t' = { t with availableQuantity := t'.availableQuantity })
    (ha : t'.availableQuantity ≤ t.availableQuantity)
    (h : stepFrom t' rs m) : stepFrom t rs m := by
  obtain ⟨a, r, hskel, hrec, hq, hqa, hat, hqd, hqn, hcan⟩ := h
  refine ⟨a, r, hskel, ?_, hq, hqa, le_trans hat ha, hqd, ?_, ?_⟩
  · rw [hrec, ht]
  · rw [ht] at hqn; exact hqn
  · rw [ht] at hcan; exact hcan

theorem stepFrom_mono_rs {t : TransferCandidate} {rs rs' : List ReceiveCandidate}
    {m : MatchStep} (hrs : ∀ r, skelMem rs' r → skelMem rs r)
    (h : stepFrom t rs' m) : stepFrom t rs m := by
  obtain ⟨a, r, hskel, hrest⟩ := h
  exact ⟨a, r, hrs r hskel, hrest⟩

/-- Specification of a successful `tryMatch`. -/
theorem tryMatch_some {t : TransferCandidate} {r : ReceiveCandidate}
    {ar : List ReceiveCandidate} {q : Int} (h : tryMatch t r ar = some q) :
    0 < q ∧ q ≤ t.availableQuantity ∧ q ≤ r.demandQuantity ∧
    q ≤ (t.row.sasaNetStock : Int) ∧
    canTransferBetweenSites t.row.site r.row.site = true := by
  unfold tryMatch at h
  by_cases hcan : canTransferBetweenSites t.row.site r.row.site
  · simp only [hcan, Bool.not_true, Bool.false_eq_true, if_false] at h
    by_cases hom : checkOmRestriction t.row.om t.row.site t.row.site ar = true
    all_goals {
      simp only [Bool.not_eq_true', Bool.not_eq_false] at h
      split at h
      · exact absurd h (by simp)
      · split at h
        · exact absurd h (by simp)
        · split at h
          · rename_i hq1 hbump
            obtain ⟨h1, h2, h3, h4⟩ := hbump
            obtain rfl : q = 2 := by simpa using h.symm
            exact ⟨by omega, h2, h4, h3, hcan⟩
          · rename_i hq1 hbump
            obtain rfl : q = min (min t.availableQuantity r.demandQuantity)
                (t.row.sasaNetStock : Int) := by
              simpa using h.symm
            refine ⟨by omega, ?_, ?_, ?_, hcan⟩ <;>
              simp [le_min_iff, min_le_iff] }
  · simp [Bool.not_eq_true', Bool.not_eq_false] at h hcan
    simp [hcan] at h

theorem matchReceives_final_t (a : String) (order : List Nat) (t : TransferCandidate)
    (rs : List ReceiveCandidate) :
    (matchReceives a t order rs).1 =
      { t with availableQuantity :=
          t.availableQuantity - stepsQtySum (matchReceives a t order rs).2.2 } := by
  induction order generalizing t rs with
  | nil => simp [matchReceives]
  | cons j rest ih =>
    simp only [matchReceives]
    cases h : rs[j]? with
    | none =>
      simp only [h]
      exact ih t rs
    | some r =>
      simp only [h]
      cases htm : tryMatch t r (rs.filter fun c => c.row.article == a) with
      | none =>
        simp only [htm]
        exact ih t rs
      | some qty =>
        simp only [htm]
        split
        · simp [stepsQtySum]
        · rw [ih]
          simp only [stepsQtySum_cons]
          congr 1
          omega

theorem matchReceives_getElem (a : String) (order : List Nat) (t : TransferCandidate)
    (rs : List ReceiveCandidate) (j : Nat) :
    ((matchReceives a t order rs).2.1)[j]? =
      (rs[j]?).map (fun r =>
        { r with demandQuantity :=
            r.demandQuantity - stepsQtySumAt j (matchReceives a t order rs).2.2 }) := by
  induction order generalizing t rs with
  | nil => cases h : rs[j]? <;> simp [matchReceives, h]
  | cons k rest ih =>
    simp only [matchReceives]
    cases h : rs[k]? with
    | none =>
      simp only [h]
      exact ih t rs
    | some r =>
      simp only [h]
      cases htm : tryMatch t r (rs.filter fun c => c.row.article == a) with
      | none =>
        simp only [htm]
        exact ih t rs
      | some qty =>
        have hk : k < rs.length := by
          rw [List.getElem?_eq_some_iff] at h
          exact h.1
        simp only [htm]
        split
        · rw [List.getElem?_set]
          by_cases hkj : k = j
          · subst hkj
            simp only [if_pos rfl, if_pos hk, h, Option.map_some']
            have hs : stepsQtySumAt k
                [(⟨k, qty, createRecommendation t r qty⟩ : MatchStep)] = qty := by
              simp [stepsQtySumAt]
            rw [hs]
            simp
          · simp only [if_neg hkj]
            have hs : stepsQtySumAt j
                [(⟨k, qty, createRecommendation t r qty⟩ : MatchStep)] = 0 := by
              simp [stepsQtySumAt, List.filter_cons, hkj]
            rw [hs]
            cases rs[j]? <;> simp
        · rw [ih]
          rw [List.getElem?_set]
          rw [stepsQtySumAt_cons]
          by_cases hkj : k = j
          · subst hkj
            simp only [if_pos rfl, if_pos hk, h, Option.map_some']
            simp only [beq_self_eq_true, if_true, Option.map_some', Option.some.injEq,
              ReceiveCandidate.mk.injEq, true_and, and_true]
            omega
          · simp only [if_neg hkj]
            have hne : ((⟨k, qty, createRecommendation t r qty⟩ : MatchStep).rIdx == j) = false := by
              simpa using hkj
            rw [hne]
            cases rs[j]? <;> simp

theorem matchReceives_demand_nonneg (a : String) (order : List Nat)
    (t : TransferCandidate) (rs : List ReceiveCandidate)
    (hrs : ∀ r ∈ rs, 0 ≤ r.demandQuantity) :
    ∀ r' ∈ (matchReceives a t order rs).2.1, 0 ≤ r'.demandQuantity := by
  induction order generalizing t rs with
  | nil => simpa [matchReceives] using hrs
  | cons k rest ih =>
    simp only [matchReceives]
    cases h : rs[k]? with
    | none =>
      simp only [h]
      exact ih t rs hrs
    | some r =>
      simp only [h]
      cases htm : tryMatch t r (rs.filter fun c => c.row.article == a) with
      | none =>
        simp only [htm]
        exact ih t rs hrs
      | some qty =>
        obtain ⟨hq0, hqa, hqd, hqn, hcan⟩ := tryMatch_some htm
        have hset : ∀ r' ∈ rs.set k { r with demandQuantity := r.demandQuantity - qty },
            0 ≤ r'.demandQuantity := by
          intro r' hr'
          rcases List.mem_or_eq_of_mem_set hr' with hr'' | rfl
          · exact hrs r' hr''
          · simpa using by omega
        simp only [htm]
        split
        · exact hset
        · exact ih _ _ hset

theorem matchReceives_avail_nonneg (a : String) (order : List Nat)
    (t : TransferCandidate) (rs : List ReceiveCandidate)
    (ht : 0 ≤ t.availableQuantity) :
    0 ≤ (matchReceives a t order rs).1.availableQuantity := by
  induction order generalizing t rs with
  | nil => simpa [matchReceives] using ht
  | cons k rest ih =>
    simp only [matchReceives]
    cases h : rs[k]? with
    | none =>
      simp only [h]
      exact ih t rs ht
    | some r =>
      simp only [h]
      cases htm : tryMatch t r (rs.filter fun c => c.row.article == a) with
      | none =>
        simp only [htm]
        exact ih t rs ht
      | some qty =>
        obtain ⟨hq0, hqa, hqd, hqn, hcan⟩ := tryMatch_some htm
        simp only [htm]
        split
        · simpa using by omega
        · exact ih _ _ (by simpa using by omega)

theorem matchReceives_steps (a : String) (order : List Nat) (t : TransferCandidate)
    (rs : List ReceiveCandidate) :
    ∀ m ∈ (matchReceives a t order rs).2.2, stepFrom t rs m := by
  induction order generalizing t rs with
  | nil => simp [matchReceives]
  | cons k rest ih =>
    simp only [matchReceives]
    cases h : rs[k]? with
    | none =>
      simp only [h]
      exact ih t rs
    | some r =>
      simp only [h]
      cases htm : tryMatch t r (rs.filter fun c => c.row.article == a) with
      | none =>
        simp only [htm]
        exact ih t rs
      | some qty =>
        obtain ⟨hq0, hqa, hqd, hqn, hcan⟩ := tryMatch_some htm
        have hmem : r ∈ rs := by
          rw [List.getElem?_eq_some_iff] at h
          obtain ⟨hlt, rfl⟩ := h
          exact List.getElem_mem hlt
        have hstep : stepFrom t rs ⟨k, qty, createRecommendation t r qty⟩ :=
          ⟨t.availableQuantity, r, skelMem_of_mem hmem, rfl, hq0, hqa, le_refl _,
            hqd, hqn, hcan⟩
        simp only [htm]
        split
        · intro m hm
          simp only [List.mem_singleton] at hm
          subst hm
          exact hstep
        · intro m hm
          rcases List.mem_cons.mp hm with rfl | hm'
          · exact hstep
          · have h1 := ih ({ t with availableQuantity := t.availableQuantity - qty })
              (rs.set k { r with demandQuantity := r.demandQuantity - qty }) m hm'
            have h2 : stepFrom t
                (rs.set k { r with demandQuantity := r.demandQuantity - qty }) m :=
              stepFrom_mono_t rfl (by simp; omega) h1
            exact stepFrom_mono_rs (fun r' hr' => skelMem_set hmem rfl hr') h2

/-- `rs'` is `rs` with only demand quantities changed (pointwise membership in
the demand-forgetting sense). -/
def demandEvolved (rs rs' : List ReceiveCandidate) : Prop :=
  ∀ r ∈ rs', skelMem rs r

theorem demandEvolved_refl (rs : List ReceiveCandidate) : demandEvolved rs rs :=
  fun _ hr => skelMem_of_mem hr

theorem skelMem_of_demandEvolved {rs rs' : List ReceiveCandidate}
    {r : ReceiveCandidate} (h : demandEvolved rs rs') (hr : skelMem rs' r) :
    skelMem rs r := by
  obtain ⟨r1, h1, hr1⟩ := hr
  obtain ⟨r2, h2, hr2⟩ := h r1 h1
  refine ⟨r2, h2, ?_⟩
  rw [hr1, hr2]

theorem demandEvolved_trans {rs rs' rs'' : List ReceiveCandidate}
    (h1 : demandEvolved rs rs') (h2 : demandEvolved rs' rs'') :
    demandEvolved rs rs'' :=
  fun r hr => skelMem_of_demandEvolved h1 (h2 r hr)

/-- A pointwise demand-decrement equation implies `demandEvolved`. -/
theorem demandEvolved_of_getElem {rs rs' : List ReceiveCandidate} {f : Nat → Int}
    (h : ∀ j, rs'[j]? = (rs[j]?).map (fun r : ReceiveCandidate =>
      { r with demandQuantity := r.demandQuantity - f j })) :
    demandEvolved rs rs' := by
  intro r' hr'
  obtain ⟨j, hj⟩ := List.mem_iff_getElem?.mp hr'
  rw [h j] at hj
  cases h0 : rs[j]? with
  | none => rw [h0] at hj; simp at hj
  | some r0 =>
    rw [h0] at hj
    simp only [Option.map_some', Option.some.injEq] at hj
    refine ⟨r0, ?_, ?_⟩
    · rw [List.getElem?_eq_some_iff] at h0
      obtain ⟨hlt, rfl⟩ := h0
      exact List.getElem_mem hlt
    · rw [← hj]

/-- Quantities committed by well-formed steps are positive, so their sum is
non-negative. -/
theorem stepsQtySum_nonneg {ms : List MatchStep} (h : ∀ m ∈ ms, 0 < m.qty) :
    0 ≤ stepsQtySum ms := by
  induction ms with
  | nil => simp
  | cons m ms ih =>
    have h1 := h m (List.mem_cons_self m ms)
    have h2 := ih (fun m' hm' => h m' (List.mem_cons_of_mem m hm'))
    simp only [stepsQtySum_cons]
    omega

theorem matchReceives_demandEvolved (a : String) (order : List Nat)
    (t : TransferCandidate) (rs : List ReceiveCandidate) :
    demandEvolved rs (matchReceives a t order rs).2.1 :=
  demandEvolved_of_getElem (fun j => matchReceives_getElem a order t rs j)

theorem matchPriorities_final_t (a : String)
    (prios : List (TransferType × ReceivePriority)) (t : TransferCandidate)
    (rs : List ReceiveCandidate) :
    (matchPriorities a t prios rs).1 =
      { t with availableQuantity :=
          t.availableQuantity - stepsQtySum (matchPriorities a t prios rs).2.2 } := by
  induction prios generalizing t rs with
  | nil => simp [matchPriorities]
  | cons p rest ih =>
    obtain ⟨tt, rp⟩ := p
    simp only [matchPriorities]
    split
    · exact ih t rs
    · split
      · exact ih t rs
      · rw [ih]
        rw [matchReceives_final_t]
        simp only [stepsQtySum_append]
        congr 1
        omega

theorem matchPriorities_getElem (a : String)
    (prios : List (TransferType × ReceivePriority)) (t : TransferCandidate)
    (rs : List ReceiveCandidate) (j : Nat) :
    ((matchPriorities a t prios rs).2.1)[j]? =
      (rs[j]?).map (fun r =>
        { r with demandQuantity :=
            r.demandQuantity - stepsQtySumAt j (matchPriorities a t prios rs).2.2 }) := by
  induction prios generalizing t rs with
  | nil =>
    cases h : rs[j]? <;> simp [matchPriorities, h]
  | cons p rest ih =>
    obtain ⟨tt, rp⟩ := p
    simp only [matchPriorities]
    split
    · exact ih t rs
    · split
      · exact ih t rs
      · rw [ih]
        rw [matchReceives_getElem]
        simp only [stepsQtySumAt_append]
        cases rs[j]? with
        | none => simp
        | some r0 =>
          simp only [Option.map_some', Option.some.injEq, ReceiveCandidate.mk.injEq,
            true_and, and_true]
          omega

theorem matchPriorities_steps (a : String)
    (prios : List (TransferType × ReceivePriority)) (t : TransferCandidate)
    (rs : List ReceiveCandidate) :
    ∀ m ∈ (matchPriorities a t prios rs).2.2, stepFrom t rs m := by
  induction prios generalizing t rs with
  | nil => simp [matchPriorities]
  | cons p rest ih =>
    obtain ⟨tt, rp⟩ := p
    simp only [matchPriorities]
    split
    · exact ih t rs
    · split
      · exact ih t rs
      · intro m hm
        rcases List.mem_append.mp hm with hm1 | hm2
        · exact matchReceives_steps a _ t rs m hm1
        · have hsteps1 := matchReceives_steps a (receiveOrder a rp rs) t rs
          have hsum1 : 0 ≤ stepsQtySum (matchReceives a t (receiveOrder a rp rs) rs).2.2 :=
            stepsQtySum_nonneg (fun m' hm' => ((hsteps1 m' hm').choose_spec.choose_spec).2.2.1)
          have h1 := ih (matchReceives a t (receiveOrder a rp rs) rs).1
            (matchReceives a t (receiveOrder a rp rs) rs).2.1 m hm2
          have hftl := matchReceives_final_t a (receiveOrder a rp rs) t rs
          have h2 : stepFrom t (matchReceives a t (receiveOrder a rp rs) rs).2.1 m := by
            refine stepFrom_mono_t ?_ ?_ h1
            · rw [hftl]
            · rw [hftl]
              simp only
              omega
          exact stepFrom_mono_rs
            (fun r' hr' =>
              skelMem_of_demandEvolved (matchReceives_demandEvolved a _ t rs) hr') h2

theorem matchPriorities_demand_nonneg (a : String)
    (prios : List (TransferType × ReceivePriority)) (t : TransferCandidate)
    (rs : List ReceiveCandidate) (hrs : ∀ r ∈ rs, 0 ≤ r.demandQuantity) :
    ∀ r' ∈ (matchPriorities a t prios rs).2.1, 0 ≤ r'.demandQuantity := by
  induction prios generalizing t rs with
  | nil => simpa [matchPriorities] using hrs
  | cons p rest ih =>
    obtain ⟨tt, rp⟩ := p
    simp only [matchPriorities]
    split
    · exact ih t rs hrs
    · split
      · exact ih t rs hrs
      · exact ih _ _ (matchReceives_demand_nonneg a _ t rs hrs)

theorem matchPriorities_avail_nonneg (a : String)
    (prios : List (TransferType × ReceivePriority)) (t : TransferCandidate)
    (rs : List ReceiveCandidate) (ht : 0 ≤ t.availableQuantity) :
    0 ≤ (matchPriorities a t prios rs).1.availableQuantity := by
  induction prios generalizing t rs with
  | nil => simpa [matchPriorities] using ht
  | cons p rest ih =>
    obtain ⟨tt, rp⟩ := p
    simp only [matchPriorities]
    split
    · exact ih t rs ht
    · split
      · exact ih t rs ht
      · exact ih _ _ (matchReceives_avail_nonneg a _ t rs ht)

theorem matchPriorities_demandEvolved (a : String)
    (prios : List (TransferType × ReceivePriority)) (t : TransferCandidate)
    (rs : List ReceiveCandidate) :
    demandEvolved rs (matchPriorities a t prios rs).2.1 :=
  demandEvolved_of_getElem (fun j => matchPriorities_getElem a prios t rs j)

@[simp] theorem tracesQtySumAt_nil (j : Nat) : tracesQtySumAt j [] = 0 := rfl

@[simp] theorem tracesQtySumAt_cons (j : Nat) (tr : TransferTrace)
    (trs : List TransferTrace) :
    tracesQtySumAt j (tr :: trs) = stepsQtySumAt j tr.steps + tracesQtySumAt j trs := by
  simp [tracesQtySumAt]

@[simp] theorem tracesQtySumAt_append (j : Nat) (trs₁ trs₂ : List TransferTrace) :
    tracesQtySumAt j (trs₁ ++ trs₂) = tracesQtySumAt j trs₁ + tracesQtySumAt j trs₂ := by
  simp [tracesQtySumAt]

theorem tracesQtySumAt_zero_steps {j : Nat} {trs : List TransferTrace}
    (h : ∀ tr ∈ trs, tr.steps = []) : tracesQtySumAt j trs = 0 := by
  induction trs with
  | nil => simp
  | cons tr trs ih =>
    rw [tracesQtySumAt_cons, h tr (List.mem_cons_self tr trs),
      ih (fun tr' htr' => h tr' (List.mem_cons_of_mem tr htr'))]
    simp

theorem matchTransfers_traces_init (a : String) (pending : List TransferCandidate)
    (rs : List ReceiveCandidate) :
    ((matchTransfers a pending rs).2).map (fun tr => tr.init) = pending := by
  induction pending generalizing rs with
  | nil => simp [matchTransfers]
  | cons t rest ih =>
    simp only [matchTransfers]
    split
    · simp [List.map_map]
      exact List.map_id rest
    · simp only [List.map_cons]
      rw [ih]

theorem matchTransfers_traces (a : String) (pending : List TransferCandidate)
    (rs : List ReceiveCandidate) :
    ∀ tr ∈ (matchTransfers a pending rs).2,
      tr.final = { tr.init with availableQuantity :=
          tr.init.availableQuantity - stepsQtySum tr.steps } ∧
      (∀ m ∈ tr.steps, stepFrom tr.init rs m) := by
  induction pending generalizing rs with
  | nil => simp [matchTransfers]
  | cons t rest ih =>
    simp only [matchTransfers]
    split
    · intro tr htr
      simp only [List.mem_map] at htr
      obtain ⟨u, hu, rfl⟩ := htr
      constructor
      · simp
      · simp
    · intro tr htr
      rcases List.mem_cons.mp htr with rfl | htr'
      · constructor
        · exact matchPriorities_final_t a MATCHING_PRIORITY t rs
        · exact matchPriorities_steps a MATCHING_PRIORITY t rs
      · obtain ⟨h1, h2⟩ := ih _ tr htr'
        refine ⟨h1, fun m hm => ?_⟩
        exact stepFrom_mono_rs
          (fun r' hr' =>
            skelMem_of_demandEvolved
              (matchPriorities_demandEvolved a MATCHING_PRIORITY t rs) hr')
          (h2 m hm)

theorem matchTransfers_getElem (a : String) (pending : List TransferCandidate)
    (rs : List ReceiveCandidate) (j : Nat) :
    ((matchTransfers a pending rs).1)[j]? =
      (rs[j]?).map (fun r =>
        { r with demandQuantity :=
            r.demandQuantity - tracesQtySumAt j (matchTransfers a pending rs).2 }) := by
  induction pending generalizing rs with
  | nil => cases h : rs[j]? <;> simp [matchTransfers, h]
  | cons t rest ih =>
    simp only [matchTransfers]
    split
    · have hz : tracesQtySumAt j ((t :: rest).map
          (fun u => (⟨u, u, []⟩ : TransferTrace))) = 0 := by
        refine tracesQtySumAt_zero_steps ?_
        intro tr htr
        simp only [List.mem_map] at htr
        obtain ⟨u, hu, rfl⟩ := htr
        rfl
      rw [hz]
      cases rs[j]? <;> simp
    · rw [ih]
      rw [matchPriorities_getElem]
      rw [tracesQtySumAt_cons]
      cases rs[j]? with
      | none => simp
      | some r0 =>
        simp only [Option.map_some', Option.some.injEq, ReceiveCandidate.mk.injEq,
          true_and, and_true]
        omega

theorem matchTransfers_demand_nonneg (a : String) (pending : List TransferCandidate)
    (rs : List ReceiveCandidate) (hrs : ∀ r ∈ rs, 0 ≤ r.demandQuantity) :
    ∀ r' ∈ (matchTransfers a pending rs).1, 0 ≤ r'.demandQuantity := by
  induction pending generalizing rs with
  | nil => simpa [matchTransfers] using hrs
  | cons t rest ih =>
    simp only [matchTransfers]
    split
    · exact hrs
    · exact ih _ (matchPriorities_demand_nonneg a MATCHING_PRIORITY t rs hrs)

theorem matchTransfers_final_nonneg (a : String) (pending : List TransferCandidate)
    (rs : List ReceiveCandidate) :
    ∀ tr ∈ (matchTransfers a pending rs).2,
      0 ≤ tr.init.availableQuantity → 0 ≤ tr.final.availableQuantity := by
  induction pending generalizing rs with
  | nil => simp [matchTransfers]
  | cons t rest ih =>
    simp only [matchTransfers]
    split
    · intro tr htr
      simp only [List.mem_map] at htr
      obtain ⟨u, hu, rfl⟩ := htr
      exact fun h => h
    · intro tr htr
      rcases List.mem_cons.mp htr with rfl | htr'
      · exact fun h => matchPriorities_avail_nonneg a MATCHING_PRIORITY t rs h
      · exact ih _ tr htr'

theorem matchTransfers_demandEvolved (a : String) (pending : List TransferCandidate)
    (rs : List ReceiveCandidate) :
    demandEvolved rs (matchTransfers a pending rs).1 :=
  demandEvolved_of_getElem (fun j => matchTransfers_getElem a pending rs j)

theorem executeMatchingAux_traces (ts : List TransferCandidate)
    (articles : List String) (rs : List ReceiveCandidate) :
    ∀ tr ∈ (executeMatchingAux ts articles rs).2,
      tr.init ∈ ts ∧
      tr.final = { tr.init with availableQuantity :=
          tr.init.availableQuantity - stepsQtySum tr.steps } ∧
      (∀ m ∈ tr.steps, stepFrom tr.init rs m) := by
  induction articles generalizing rs with
  | nil => simp [executeMatchingAux]
  | cons a rest ih =>
    simp only [executeMatchingAux]
    split
    · exact ih rs
    · intro tr htr
      rcases List.mem_append.mp htr with htr1 | htr2
      · -- a trace of the current article
        have hinit : tr.init ∈ ts := by
          have hmem0 : tr.init ∈ ((matchTransfers a _ rs).2).map (fun tr => tr.init) :=
            List.mem_map_of_mem _ htr1
          rw [matchTransfers_traces_init] at hmem0
          split at hmem0
          · rw [List.mem_insertionSort] at hmem0
            exact (List.mem_filter.mp hmem0).1
          · exact (List.mem_filter.mp hmem0).1
        obtain ⟨h1, h2⟩ := matchTransfers_traces a _ rs tr htr1
        exact ⟨hinit, h1, h2⟩
      · obtain ⟨h0, h1, h2⟩ := ih _ tr htr2
        refine ⟨h0, h1, fun m hm => ?_⟩
        exact stepFrom_mono_rs
          (fun r' hr' =>
            skelMem_of_demandEvolved (matchTransfers_demandEvolved a _ rs) hr')
          (h2 m hm)

theorem executeMatchingAux_getElem (ts : List TransferCandidate)
    (articles : List String) (rs : List ReceiveCandidate) (j : Nat) :
    ((executeMatchingAux ts articles rs).1)[j]? =
      (rs[j]?).map (fun r =>
        { r with demandQuantity :=
            r.demandQuantity - tracesQtySumAt j (executeMatchingAux ts articles rs).2 }) := by
  induction articles generalizing rs with
  | nil => cases h : rs[j]? <;> simp [executeMatchingAux, h]
  | cons a rest ih =>
    simp only [executeMatchingAux]
    split
    · exact ih rs
    · rw [ih]
      rw [matchTransfers_getElem]
      rw [tracesQtySumAt_append]
      cases rs[j]? with
      | none => simp
      | some r0 =>
        simp only [Option.map_some', Option.some.injEq, ReceiveCandidate.mk.injEq,
          true_and, and_true]
        omega

theorem executeMatchingAux_demand_nonneg (ts : List TransferCandidate)
    (articles : List String) (rs : List ReceiveCandidate)
    (hrs : ∀ r ∈ rs, 0 ≤ r.demandQuantity) :
    ∀ r' ∈ (executeMatchingAux ts articles rs).1, 0 ≤ r'.demandQuantity := by
  induction articles generalizing rs with
  | nil => simpa [executeMatchingAux] using hrs
  | cons a rest ih =>
    simp only [executeMatchingAux]
    split
    · exact ih rs hrs
    · exact ih _ (matchTransfers_demand_nonneg a _ rs hrs)

theorem executeMatchingAux_final_nonneg (ts : List TransferCandidate)
    (articles : List String) (rs : List ReceiveCandidate) :
    ∀ tr ∈ (executeMatchingAux ts articles rs).2,
      0 ≤ tr.init.availableQuantity → 0 ≤ tr.final.availableQuantity := by
  induction articles generalizing rs with
  | nil => simp [executeMatchingAux]
  | cons a rest ih =>
    simp only [executeMatchingAux]
    split
    · exact ih rs
    · intro tr htr
      rcases List.mem_append.mp htr with htr1 | htr2
      · exact matchTransfers_final_nonneg a _ rs tr htr1
      · exact ih _ tr htr2

/-- The master per-trace fact about `execute_matching`: every trace starts at
a classified transfer candidate, its final available quantity is the initial
one minus the total quantity committed, and every committed step satisfies
`stepFrom` relative to the initial candidate states. -/
theorem executeMatchingTrace_facts (ts : List TransferCandidate)
    (rs : List ReceiveCandidate) :
    ∀ tr ∈ executeMatchingTrace ts rs,
      tr.init ∈ ts ∧
      tr.final = { tr.init with availableQuantity :=
          tr.init.availableQuantity - stepsQtySum tr.steps } ∧
      (∀ m ∈ tr.steps, stepFrom tr.init rs m) := by
  intro tr htr
  unfold executeMatchingTrace executeMatchingFull at htr
  split at htr
  · simp at htr
  · exact executeMatchingAux_traces ts (uniqueArticles ts) rs tr htr

/-- The receive-side state equation of `execute_matching`: position by
position, the final demand is the initial demand minus everything committed
against that position. -/
theorem executeMatchingFull_getElem (ts : List TransferCandidate)
    (rs : List ReceiveCandidate) (j : Nat) :
    ((executeMatchingFull ts rs).1)[j]? =
      (rs[j]?).map (fun r =>
        { r with demandQuantity :=
            r.demandQuantity - tracesQtySumAt j (executeMatchingFull ts rs).2 }) := by
  unfold executeMatchingFull
  split
  · cases h : rs[j]? <;> simp [h]
  · exact executeMatchingAux_getElem ts (uniqueArticles ts) rs j

theorem executeMatchingFull_demand_nonneg (ts : List TransferCandidate)
    (rs : List ReceiveCandidate) (hrs : ∀ r ∈ rs, 0 ≤ r.demandQuantity) :
    ∀ r' ∈ (executeMatchingFull ts rs).1, 0 ≤ r'.demandQuantity := by
  unfold executeMatchingFull
  split
  · exact hrs
  · exact executeMatchingAux_demand_nonneg ts (uniqueArticles ts) rs hrs

theorem executeMatchingTrace_final_nonneg (ts : List TransferCandidate)
    (rs : List ReceiveCandidate) :
    ∀ tr ∈ executeMatchingTrace ts rs,
      0 ≤ tr.init.availableQuantity → 0 ≤ tr.final.availableQuantity := by
  intro tr htr
  unfold executeMatchingTrace executeMatchingFull at htr
  split at htr
  · simp at htr
  · exact executeMatchingAux_final_nonneg ts (uniqueArticles ts) rs tr htr

/-- Every emitted recommendation comes from a step of some trace. -/
theorem executeMatching_mem (ts : List TransferCandidate)
    (rs : List ReceiveCandidate) :
    ∀ rec ∈ executeMatching ts rs,
      ∃ tr ∈ executeMatchingTrace ts rs, ∃ m ∈ tr.steps, m.recommendation = rec := by
  intro rec hrec
  unfold executeMatching at hrec
  rw [List.mem_flatMap] at hrec
  obtain ⟨tr, htr, hrec'⟩ := hrec
  rw [List.mem_map] at hrec'
  obtain ⟨m, hm, rfl⟩ := hrec'
  exact ⟨tr, htr, m, hm, rfl⟩

/-! ### Classifier invariants -/

/-- Basic well-formedness of every classified transfer candidate, for every
mode: its available quantity is positive, bounded by the original stock, and
the original stock is the snapshot of the row's `SaSa Net Stock`. -/
theorem transferCandidatesFor_facts (df : List StockRow) (mode : String) :
    ∀ t ∈ transferCandidatesFor df mode,
      0 < t.availableQuantity ∧ t.availableQuantity ≤ t.originalStock ∧
      t.originalStock = (t.row.sasaNetStock : Int) := by
  have hnd : ∀ t ∈ identifyNdTransferCandidates df,
      0 < t.availableQuantity ∧ t.availableQuantity ≤ t.originalStock ∧
      t.originalStock = (t.row.sasaNetStock : Int) := by
    intro t ht
    simp only [identifyNdTransferCandidates, List.mem_filter, List.mem_map,
      decide_eq_true_eq] at ht
    obtain ⟨⟨r, hr, rfl⟩, hpos⟩ := ht
    exact ⟨hpos, le_refl _, rfl⟩
  have hrfA : ∀ t ∈ identifyRfSurplusTransferCandidates df,
      0 < t.availableQuantity ∧ t.availableQuantity ≤ t.originalStock ∧
      t.originalStock = (t.row.sasaNetStock : Int) := by
    intro t ht
    simp only [identifyRfSurplusTransferCandidates, List.mem_filter, List.mem_map,
      decide_eq_true_eq] at ht
    obtain ⟨⟨⟨r, hr, rfl⟩, hsafe⟩, hpos⟩ := ht
    refine ⟨hpos, ?_, rfl⟩
    simp only
    exact_mod_cast Nat.min_le_right _ _
  have hrfB : ∀ t ∈ identifyRfTransferCandidatesB df,
      0 < t.availableQuantity ∧ t.availableQuantity ≤ t.originalStock ∧
      t.originalStock = (t.row.sasaNetStock : Int) := by
    intro t ht
    simp only [identifyRfTransferCandidatesB, List.mem_filter, List.mem_map,
      decide_eq_true_eq] at ht
    obtain ⟨⟨r, hr, rfl⟩, hpos⟩ := ht
    refine ⟨hpos, ?_, rfl⟩
    simp only
    exact_mod_cast Nat.min_le_right _ _
  have hndC : ∀ t ∈ identifyNdTransferCandidatesC df,
      0 < t.availableQuantity ∧ t.availableQuantity ≤ t.originalStock ∧
      t.originalStock = (t.row.sasaNetStock : Int) := by
    intro t ht
    simp only [identifyNdTransferCandidatesC, List.mem_filter, List.mem_map,
      decide_eq_true_eq] at ht
    obtain ⟨⟨r, hr, rfl⟩, hpos⟩ := ht
    exact ⟨hpos, le_refl _, rfl⟩
  have hrfC : ∀ t ∈ identifyRfTransferCandidatesC df,
      0 < t.availableQuantity ∧ t.availableQuantity ≤ t.originalStock ∧
      t.originalStock = (t.row.sasaNetStock : Int) := by
    intro t ht
    simp only [identifyRfTransferCandidatesC, List.mem_filter, List.mem_map,
      decide_eq_true_eq] at ht
    obtain ⟨⟨r, hr, rfl⟩, hpos⟩ := ht
    exact ⟨hpos, le_refl _, rfl⟩
  intro t ht
  unfold transferCandidatesFor at ht
  split at ht
  · rcases List.mem_append.mp ht with h | h
    · exact hnd t h
    · exact hrfA t h
  · split at ht
    · rcases List.mem_append.mp ht with h | h
      · exact hnd t h
      · exact hrfB t h
    · rcases List.mem_append.mp ht with h | h
      · exact hndC t h
      · exact hrfC t h

/-- Every classified receive candidate has a non-negative demand quantity. -/
theorem receiveCandidatesAll_nonneg (df : List StockRow) :
    ∀ r ∈ receiveCandidatesAll df, 0 ≤ r.demandQuantity := by
  intro c hc
  unfold receiveCandidatesAll at hc
  rcases List.mem_append.mp hc with h | h
  · simp only [identifyUrgentShortageCandidates, List.mem_map, List.mem_filter,
      decide_eq_true_eq] at h
    obtain ⟨r, hr, rfl⟩ := h
    simp
  · simp only [identifyPotentialShortageCandidates, List.mem_map, List.mem_filter,
      Bool.and_eq_true, decide_eq_true_eq] at h
    obtain ⟨r, ⟨hr, h1, h2⟩, rfl⟩ := h
    simp only
    omega

/-- Mode A ND candidates are tagged `ND_TRANSFER`. -/
theorem identifyNdTransferCandidates_type (df : List StockRow) :
    ∀ t ∈ identifyNdTransferCandidates df, t.transferType = TransferType.ND_TRANSFER := by
  intro t ht
  simp only [identifyNdTransferCandidates, List.mem_filter, List.mem_map,
    decide_eq_true_eq] at ht
  obtain ⟨⟨r, hr, rfl⟩, hpos⟩ := ht
  rfl

/-- The mode A safety-floor property of every RF surplus candidate: even after
transferring away the full available quantity, stock plus pending stays at or
above the safety stock. -/
theorem identifyRfSurplusTransferCandidates_safety (df : List StockRow) :
    ∀ t ∈ identifyRfSurplusTransferCandidates df,
      (t.row.safetyStock : Int) ≤
        (t.row.sasaNetStock : Int) + (t.row.pendingReceived : Int) - t.availableQuantity := by
  intro t ht
  simp only [identifyRfSurplusTransferCandidates, List.mem_filter,
    decide_eq_true_eq] at ht
  exact ht.1.2

@[simp] theorem createRecommendation_transferQty (t : TransferCandidate)
    (r : ReceiveCandidate) (q : Int) : (createRecommendation t r q).transferQty = q := rfl

@[simp] theorem createRecommendation_originalStock (t : TransferCandidate)
    (r : ReceiveCandidate) (q : Int) :
    (createRecommendation t r q).transferSiteOriginalStock = t.originalStock := rfl

@[simp] theorem createRecommendation_afterStock (t : TransferCandidate)
    (r : ReceiveCandidate) (q : Int) :
    (createRecommendation t r q).transferSiteAfterTransferStock = t.originalStock - q := rfl

@[simp] theorem createRecommendation_transferSite (t : TransferCandidate)
    (r : ReceiveCandidate) (q : Int) :
    (createRecommendation t r q).transferSite = t.row.site := rfl

@[simp] theorem createRecommendation_receiveSite (t : TransferCandidate)
    (r : ReceiveCandidate) (q : Int) :
    (createRecommendation t r q).receiveSite = r.row.site := rfl

@[simp] theorem createRecommendation_article (t : TransferCandidate)
    (r : ReceiveCandidate) (q : Int) :
    (createRecommendation t r q).article = t.row.article := rfl

/-- Combined per-recommendation facts: every recommendation of
`execute_matching` arises as a `createRecommendation` of a traced transfer
candidate and a demand-evolved receive candidate, with the quantity bounds of
`stepFrom`. -/
theorem executeMatching_rec_facts (ts : List TransferCandidate)
    (rs : List ReceiveCandidate) :
    ∀ rec ∈ executeMatching ts rs,
      ∃ tr ∈ executeMatchingTrace ts rs, tr.init ∈ ts ∧
        ∃ m ∈ tr.steps, m.recommendation = rec ∧
          ∃ (aq : Int) (r : ReceiveCandidate),
            skelMem rs r ∧
            rec = createRecommendation { tr.init with availableQuantity := aq } r m.qty ∧
            0 < m.qty ∧ m.qty ≤ aq ∧ aq ≤ tr.init.availableQuantity ∧
            m.qty ≤ r.demandQuantity ∧ m.qty ≤ (tr.init.row.sasaNetStock : Int) ∧
            canTransferBetweenSites tr.init.row.site r.row.site = true := by
  intro rec hrec
  obtain ⟨tr, htr, m, hm, hmr⟩ := executeMatching_mem ts rs rec hrec
  obtain ⟨hinit, hfin, hsteps⟩ := executeMatchingTrace_facts ts rs tr htr
  obtain ⟨aq, r, hskel, hrec', hq0, hqa, hat, hqd, hqn, hcan⟩ := hsteps m hm
  exact ⟨tr, htr, hinit, m, hm, hmr,
    aq, r, hskel, by rw [← hmr, hrec'], hq0, hqa, hat, hqd, hqn, hcan⟩

/-- The recommendations of a successful `generate_transfer_recommendations`
call are exactly the output of `execute_matching` on the classified
candidates. -/
theorem generate_ok_recommendations (df : List StockRow) (mode : String)
    (h : (generateTransferRecommendations df mode).isOk = true) :
    (generateTransferRecommendations df mode).recommendations =
      executeMatching (transferCandidatesFor df mode) (receiveCandidatesAll df) := by
  cases hg : generateTransferRecommendations df mode with
  | error msg => rw [hg] at h; simp [GenResult.isOk] at h
  | ok recs stats =>
    unfold generateTransferRecommendations at hg
    split at hg
    · exact absurd hg (by simp)
    · split at hg
      · injection hg with h1 h2
        rw [GenResult.recommendations, ← h1]
      · exact absurd hg (by simp)

/-- C1.  For every recommendation emitted by a successful
`generate_transfer_recommendations` call, the Transfer Qty is at most the
transfer side's original `SaSa Net Stock` snapshot
(`Transfer Site Original Stock`), and cumulatively the total Transfer Qty
committed by one transfer candidate (one matching trace) never exceeds that
candidate's `original_stock`. -/
theorem stockBound_C1 (df : List StockRow) (mode : String)
    (h : (generateTransferRecommendations df mode).isOk = true) :
    (∀ rec ∈ (generateTransferRecommendations df mode).recommendations,
        rec.transferQty ≤ rec.transferSiteOriginalStock) ∧
    (∀ tr ∈ executeMatchingTrace (transferCandidatesFor df mode) (receiveCandidatesAll df),
        stepsQtySum tr.steps ≤ tr.init.originalStock) := by
  constructor
  · intro rec hrec
    rw [generate_ok_recommendations df mode h] at hrec
    obtain ⟨tr, htr, hinit, m, hm, hmr, aq, r, hskel, hrec', hq0, hqa, hat, hqd, hqn, hcan⟩ :=
      executeMatching_rec_facts _ _ rec hrec
    obtain ⟨hpos, hle, horig⟩ := transferCandidatesFor_facts df mode tr.init hinit
    rw [hrec']
    dsimp only [createRecommendation_transferQty, createRecommendation_originalStock]
    omega
  · intro tr htr
    obtain ⟨hinit, hfin, hsteps⟩ :=
      executeMatchingTrace_facts (transferCandidatesFor df mode) (receiveCandidatesAll df) tr htr
    obtain ⟨hpos, hle, horig⟩ := transferCandidatesFor_facts df mode tr.init hinit
    have hnn := executeMatchingTrace_final_nonneg
      (transferCandidatesFor df mode) (receiveCandidatesAll df) tr htr (by omega)
    rw [hfin] at hnn
    dsimp only at hnn
    omega

/-- C2.  Under mode A, every matching step of a trace whose transfer candidate
is an RF-surplus candidate keeps the transfer side's stock plus pending at or
above its safety stock after subtracting the committed quantity; the emitted
recommendation's Transfer Qty and Original Stock fields witness the same
inequality. -/
theorem modeA_safety_floor_C2 (df : List StockRow) :
    ∀ tr ∈ executeMatchingTrace (transferCandidatesFor df "A") (receiveCandidatesAll df),
      tr.init.transferType = TransferType.RF_SURPLUS_TRANSFER →
      ∀ m ∈ tr.steps,
        (tr.init.row.safetyStock : Int) ≤
          m.recommendation.transferSiteOriginalStock +
            (tr.init.row.pendingReceived : Int) - m.recommendation.transferQty := by
  intro tr htr htype m hm
  obtain ⟨hinit, hfin, hsteps⟩ :=
    executeMatchingTrace_facts (transferCandidatesFor df "A") (receiveCandidatesAll df) tr htr
  obtain ⟨aq, r, hskel, hrec', hq0, hqa, hat, hqd, hqn, hcan⟩ := hsteps m hm
  have hmemA : tr.init ∈ identifyNdTransferCandidates df ++
      identifyRfSurplusTransferCandidates df := by
    have : transferCandidatesFor df "A" =
        identifyNdTransferCandidates df ++ identifyRfSurplusTransferCandidates df := by
      unfold transferCandidatesFor
      rfl
    rw [← this]
    exact hinit
  have hrf : tr.init ∈ identifyRfSurplusTransferCandidates df := by
    rcases List.mem_append.mp hmemA with hnd | hrf
    · have := identifyNdTransferCandidates_type df tr.init hnd
      rw [htype] at this
      exact absurd this (by simp)
    · exact hrf
  have hsafe := identifyRfSurplusTransferCandidates_safety df tr.init hrf
  obtain ⟨hpos, hle, horig⟩ := transferCandidatesFor_facts df "A" tr.init hinit
  rw [hrec']
  dsimp only [createRecommendation_transferQty, createRecommendation_originalStock]
  omega

/-- C5.  Conservation and non-negativity of the matching loop: for every
transfer trace the final available quantity is exactly the initial one minus
the summed Transfer Qty of its emitted steps and stays non-negative; position
by position, the final demand quantity is exactly the initial one minus
everything committed against that receive candidate and stays non-negative. -/
theorem conservation_C5 (ts : List TransferCandidate) (rs : List ReceiveCandidate)
    (hts : ∀ t ∈ ts, 0 ≤ t.availableQuantity)
    (hrs : ∀ r ∈ rs, 0 ≤ r.demandQuantity) :
    (∀ tr ∈ executeMatchingTrace ts rs,
        tr.final.availableQuantity = tr.init.availableQuantity - stepsQtySum tr.steps ∧
        0 ≤ tr.final.availableQuantity ∧
        ∀ m ∈ tr.steps, m.recommendation.transferQty = m.qty ∧ 0 < m.qty) ∧
    (∀ j, ((executeMatchingFull ts rs).1)[j]? =
        (rs[j]?).map (fun r : ReceiveCandidate =>
          { r with demandQuantity :=
              r.demandQuantity - tracesQtySumAt j (executeMatchingTrace ts rs) })) ∧
    (∀ r' ∈ (executeMatchingFull ts rs).1, 0 ≤ r'.demandQuantity) := by
  refine ⟨?_, ?_, ?_⟩
  · intro tr htr
    obtain ⟨hinit, hfin, hsteps⟩ := executeMatchingTrace_facts ts rs tr htr
    refine ⟨by rw [hfin], ?_, ?_⟩
    · exact executeMatchingTrace_final_nonneg ts rs tr htr (hts tr.init hinit)
    · intro m hm
      obtain ⟨aq, r, hskel, hrec', hq0, hqa, hat, hqd, hqn, hcan⟩ := hsteps m hm
      refine ⟨?_, hq0⟩
      rw [hrec']
      simp only [createRecommendation_transferQty]
  · exact fun j => executeMatchingFull_getElem ts rs j
  · exact executeMatchingFull_demand_nonneg ts rs hrs

/-- C6.  The HD one-way rule: no recommendation emitted by the matching
engine, for any candidate sets (hence for every mode and input of the
pipeline), has an "HD" transfer site prefix together with an "HA"/"HB"/"HC"
receive site prefix. -/
theorem hdOneWay_C6 (ts : List TransferCandidate) (rs : List ReceiveCandidate) :
    ∀ rec ∈ executeMatching ts rs,
      ¬(sitePrefix rec.transferSite = "HD" ∧
        (sitePrefix rec.receiveSite = "HA" ∨ sitePrefix rec.receiveSite = "HB" ∨
         sitePrefix rec.receiveSite = "HC")) := by
  intro rec hrec
  obtain ⟨tr, htr, hinit, m, hm, hmr, aq, r, hskel, hrec', hq0, hqa, hat, hqd, hqn, hcan⟩ :=
    executeMatching_rec_facts ts rs rec hrec
  rw [hrec']
  dsimp only [createRecommendation_transferSite, createRecommendation_receiveSite]
  unfold canTransferBetweenSites at hcan
  simp only [Bool.not_eq_true', Bool.and_eq_false_iff] at hcan
  intro ⟨h1, h2⟩
  rcases hcan with hcan | hcan
  · rw [h1] at hcan
    simp at hcan
  · simp only [Bool.or_eq_false_iff, beq_eq_false_iff_ne] at hcan
    rcases h2 with h2 | h2 | h2 <;> rw [h2] at hcan <;> simp at hcan

/-- C10.  Every emitted recommendation's `Transfer Site After Transfer Stock`
equals `Transfer Site Original Stock` minus `Transfer Qty` and is never
negative, and it is computed from the immutable original-stock snapshot: every
step of a trace, including later steps of a candidate that already committed
stock, reports `original_stock - (its own qty)` irrespective of the quantities
committed before. -/
theorem afterStock_C10 (df : List StockRow) (mode : String) :
    (∀ rec ∈ (generateTransferRecommendations df mode).recommendations,
        rec.transferSiteAfterTransferStock =
          rec.transferSiteOriginalStock - rec.transferQty ∧
        0 ≤ rec.transferSiteAfterTransferStock) ∧
    (∀ tr ∈ executeMatchingTrace (transferCandidatesFor df mode) (receiveCandidatesAll df),
        ∀ m ∈ tr.steps,
          m.recommendation.transferSiteAfterTransferStock =
            tr.init.originalStock - m.qty) := by
  constructor
  · intro rec hrec
    have hrec2 : rec ∈ executeMatching (transferCandidatesFor df mode)
        (receiveCandidatesAll df) := by
      by_cases h : (generateTransferRecommendations df mode).isOk = true
      · rw [← generate_ok_recommendations df mode h]
        exact hrec
      · exfalso
        cases hg : generateTransferRecommendations df mode with
        | ok recs stats => rw [hg] at h; simp [GenResult.isOk] at h
        | error msg =>
          rw [hg] at hrec
          simp [GenResult.recommendations] at hrec
    obtain ⟨tr, htr, hinit, m, hm, hmr, aq, r, hskel, hrec', hq0, hqa, hat, hqd, hqn, hcan⟩ :=
      executeMatching_rec_facts _ _ rec hrec2
    obtain ⟨hpos, hle, horig⟩ := transferCandidatesFor_facts df mode tr.init hinit
    rw [hrec']
    dsimp only [createRecommendation_transferQty, createRecommendation_originalStock,
      createRecommendation_afterStock]
    omega
  · intro tr htr m hm
    obtain ⟨hinit, hfin, hsteps⟩ := executeMatchingTrace_facts
      (transferCandidatesFor df mode) (receiveCandidatesAll df) tr htr
    obtain ⟨aq, r, hskel, hrec', hq0, hqa, hat, hqd, hqn, hcan⟩ := hsteps m hm
    rw [hrec']
    simp only [createRecommendation_afterStock]

/-- A batch with an empty error list passes the quality check. -/
theorem checkRecommendations_snd_nil {recs : List Recommendation}
    (h : (checkRecommendations recs).2 = []) :
    (checkRecommendations recs).1 = true := by
  have h' : checkRecommendationsAux 0 recs = [] := h
  show (checkRecommendationsAux 0 recs).isEmpty = true
  rw [h']
  rfl

/-- C7.  The error taxonomy of `generate_transfer_recommendations`: an invalid
mode is rejected before any classification with the fixed message; under a
valid mode the call fails exactly when the quality check fails, returning the
enumerated (non-empty) error payload, and succeeds with the matched
recommendations and their statistics otherwise; every failure is one of those
two; an empty input under a valid mode succeeds with no recommendations and
all-zero statistics. -/
theorem errorTaxonomy_C7 (df : List StockRow) (mode : String) :
    ((mode ≠ "A" ∧ mode ≠ "B" ∧ mode ≠ "C") →
      generateTransferRecommendations df mode = GenResult.error invalidModeMsg) ∧
    ((mode = "A" ∨ mode = "B" ∨ mode = "C") →
      ((checkRecommendations (executeMatching (transferCandidatesFor df mode)
            (receiveCandidatesAll df))).1 = false →
        generateTransferRecommendations df mode =
          GenResult.error (qualityFailureMsg (checkRecommendations (executeMatching
            (transferCandidatesFor df mode) (receiveCandidatesAll df))).2) ∧
        (checkRecommendations (executeMatching (transferCandidatesFor df mode)
          (receiveCandidatesAll df))).2 ≠ []) ∧
      ((checkRecommendations (executeMatching (transferCandidatesFor df mode)
            (receiveCandidatesAll df))).1 = true →
        generateTransferRecommendations df mode =
          GenResult.ok (executeMatching (transferCandidatesFor df mode)
              (receiveCandidatesAll df))
            (generateStatistics (executeMatching (transferCandidatesFor df mode)
              (receiveCandidatesAll df))))) ∧
    ((generateTransferRecommendations df mode).isOk = false →
      generateTransferRecommendations df mode = GenResult.error invalidModeMsg ∨
      ∃ errs, errs ≠ [] ∧
        generateTransferRecommendations df mode =
          GenResult.error (qualityFailureMsg errs)) ∧
    (df = [] → (mode = "A" ∨ mode = "B" ∨ mode = "C") →
      generateTransferRecommendations df mode = GenResult.ok [] zeroStatistics) := by
  have hmode_not : (mode = "A" ∨ mode = "B" ∨ mode = "C") →
      ¬(mode ≠ "A" ∧ mode ≠ "B" ∧ mode ≠ "C") := by
    rintro (rfl | rfl | rfl) ⟨h1, h2, h3⟩ <;> simp_all
  refine ⟨?_, ?_, ?_, ?_⟩
  · intro hm
    unfold generateTransferRecommendations
    rw [if_pos hm]
  · intro hm
    constructor
    · intro hcheck
      unfold generateTransferRecommendations
      rw [if_neg (hmode_not hm)]
      rw [hcheck]
      refine ⟨by simp, fun hnil => ?_⟩
      rw [checkRecommendations_snd_nil hnil] at hcheck
      simp at hcheck
    · intro hcheck
      unfold generateTransferRecommendations
      rw [if_neg (hmode_not hm)]
      rw [hcheck]
      simp
  · intro hfail
    by_cases hm : mode ≠ "A" ∧ mode ≠ "B" ∧ mode ≠ "C"
    · left
      unfold generateTransferRecommendations
      rw [if_pos hm]
    · right
      cases hcheck : (checkRecommendations (executeMatching (transferCandidatesFor df mode)
          (receiveCandidatesAll df))).1 with
      | true =>
        exfalso
        unfold generateTransferRecommendations at hfail
        rw [if_neg hm, hcheck] at hfail
        simp [GenResult.isOk] at hfail
      | false =>
        refine ⟨(checkRecommendations (executeMatching (transferCandidatesFor df mode)
            (receiveCandidatesAll df))).2, ?_, ?_⟩
        · intro hnil
          rw [checkRecommendations_snd_nil hnil] at hcheck
          simp at hcheck
        · unfold generateTransferRecommendations
          rw [if_neg hm, hcheck]
          simp
  · rintro rfl (rfl | rfl | rfl) <;> decide

/-- The row and data frame of the C3 counterexample: a single RF row with
zero sales (so `max_sold = 0` for its article) short of its safety stock. -/
def rowC3 : StockRow :=
  ⟨"000000000001", "desc", "OM1", "RF", "HA11", 0, 0, 0, 5, 0, 0⟩

def dfC3 : List StockRow := [rowC3]

/-- C3 counterexample.  For an article whose only RF site has effective sold
quantity 0 (hence `max_sold = 0`), the code still produces a potential-shortage
candidate with demand 5 — the claimed `max_sold > 0` guard does not exist in
`identify_potential_shortage_candidates`. -/
theorem potentialShortage_C3_counterexample :
    (identifyPotentialShortageCandidates dfC3).map
        (fun c => (c.row.site, c.demandQuantity)) = [("HA11", 5)] ∧
    maxSoldPerArticle (rfRows dfC3) rowC3.article = 0 := by decide

/-- C3 (amended).  An RF row yields a potential-shortage receive candidate
exactly when `net_stock + pending_received < safety_stock` and its effective
sold quantity equals the per-article maximum over RF rows — with no
requirement that the maximum be positive; the candidate's demand is
`safety_stock - (net_stock + pending_received)` and its priority is
POTENTIAL_SHORTAGE. -/
theorem potentialShortage_rule_C3 (df : List StockRow) (r : StockRow)
    (hr : r ∈ rfRows df) :
    ((∃ c ∈ identifyPotentialShortageCandidates df, c.row = r) ↔
      (r.sasaNetStock + r.pendingReceived < r.safetyStock ∧
       effectiveSoldQty r = maxSoldPerArticle (rfRows df) r.article)) ∧
    ∀ c ∈ identifyPotentialShortageCandidates df, c.row = r →
      c.demandQuantity = (r.safetyStock : Int) -
        ((r.sasaNetStock : Int) + (r.pendingReceived : Int)) ∧
      c.receivePriority = ReceivePriority.POTENTIAL_SHORTAGE := by
  constructor
  · constructor
    · rintro ⟨c, hc, hcr⟩
      simp only [identifyPotentialShortageCandidates, List.mem_map, List.mem_filter,
        Bool.and_eq_true, decide_eq_true_eq] at hc
      obtain ⟨x, ⟨hx, h1, h2⟩, rfl⟩ := hc
      simp only at hcr
      subst hcr
      exact ⟨h1, h2⟩
    · rintro ⟨h1, h2⟩
      refine ⟨⟨r, ReceivePriority.POTENTIAL_SHORTAGE,
        (r.safetyStock : Int) - ((r.sasaNetStock : Int) + (r.pendingReceived : Int)),
        (r.sasaNetStock : Int)⟩, ?_, rfl⟩
      simp only [identifyPotentialShortageCandidates, List.mem_map, List.mem_filter,
        Bool.and_eq_true, decide_eq_true_eq]
      exact ⟨r, ⟨hr, h1, h2⟩, rfl⟩
  · intro c hc hcr
    simp only [identifyPotentialShortageCandidates, List.mem_map, List.mem_filter,
      Bool.and_eq_true, decide_eq_true_eq] at hc
    obtain ⟨x, ⟨hx, h1, h2⟩, rfl⟩ := hc
    simp only at hcr
    subst hcr
    exact ⟨rfl, rfl⟩

/-- The ND row of the C4 counterexample: positive sales (effective sold 5),
trivially the minimum of its (OM, Article) group. -/
def rowC4 : StockRow :=
  ⟨"000000000002", "desc", "OM1", "ND", "HB11", 0, 10, 0, 0, 3, 2⟩

def dfC4 : List StockRow := [rowC4]

/-- C4 counterexample.  Under mode C an ND row with positive effective sold
quantity (5) is still selected as a transfer-out candidate with its full net
stock — the zero-sales requirement claimed for "both ND and RF rows" is only
applied to RF rows by the code. -/
theorem modeC_C4_counterexample :
    (identifyNdTransferCandidatesC dfC4).map
      (fun c => (c.row.site, effectiveSoldQty c.row, c.availableQuantity)) =
      [("HB11", 5, 10)] := by decide

/-- C4 (amended).  Under mode C, an ND row is a transfer-out candidate exactly
when its effective sold quantity is the minimum of its (OM, Article) group and
its net stock is positive — positive sales do **not** exclude an ND row; an RF
row additionally requires effective sold quantity exactly 0.  Every selected
candidate's available quantity is its full net stock. -/
theorem modeC_rule_C4 (df : List StockRow) :
    (∀ r ∈ df, r.rpType = "ND" →
      ((∃ c ∈ identifyNdTransferCandidatesC df, c.row = r) ↔
        (isGroupMinSold (df.filter (fun x => x.rpType == "ND")) r = true ∧
         0 < r.sasaNetStock))) ∧
    (∀ r ∈ df, r.rpType = "RF" →
      ((∃ c ∈ identifyRfTransferCandidatesC df, c.row = r) ↔
        (isGroupMinSold (rfRows df) r = true ∧ effectiveSoldQty r = 0 ∧
         0 < r.sasaNetStock))) ∧
    (∀ c ∈ identifyNdTransferCandidatesC df,
      c.availableQuantity = (c.row.sasaNetStock : Int)) ∧
    (∀ c ∈ identifyRfTransferCandidatesC df,
      c.availableQuantity = (c.row.sasaNetStock : Int)) := by
  refine ⟨?_, ?_, ?_, ?_⟩
  · intro r hrdf hrnd
    constructor
    · rintro ⟨c, hc, hcr⟩
      simp only [identifyNdTransferCandidatesC, List.mem_filter, List.mem_map,
        decide_eq_true_eq] at hc
      obtain ⟨⟨x, ⟨hx, hxmin⟩, rfl⟩, hpos⟩ := hc
      simp only at hcr hpos
      subst hcr
      refine ⟨hxmin, ?_⟩
      exact_mod_cast hpos
    · rintro ⟨hmin, hpos⟩
      refine ⟨⟨r, TransferType.ND_TRANSFER, (r.sasaNetStock : Int),
        (r.sasaNetStock : Int)⟩, ?_, rfl⟩
      simp only [identifyNdTransferCandidatesC, List.mem_filter, List.mem_map,
        decide_eq_true_eq]
      refine ⟨⟨r, ⟨⟨hrdf, by simp [hrnd]⟩, hmin⟩, rfl⟩, ?_⟩
      exact_mod_cast hpos
  · intro r hrdf hrrf
    constructor
    · rintro ⟨c, hc, hcr⟩
      simp only [identifyRfTransferCandidatesC, List.mem_filter, List.mem_map,
        decide_eq_true_eq] at hc
      obtain ⟨⟨x, ⟨⟨hx, hxmin⟩, hxzero⟩, rfl⟩, hpos⟩ := hc
      simp only at hcr hpos
      subst hcr
      refine ⟨hxmin, by simpa using hxzero, ?_⟩
      exact_mod_cast hpos
    · rintro ⟨hmin, hzero, hpos⟩
      refine ⟨⟨r, TransferType.C_COMPLETE_TRANSFER, (r.sasaNetStock : Int),
        (r.sasaNetStock : Int)⟩, ?_, rfl⟩
      simp only [identifyRfTransferCandidatesC, List.mem_filter, List.mem_map,
        decide_eq_true_eq]
      have hrf : r ∈ rfRows df := by
        unfold rfRows
        exact List.mem_filter.mpr ⟨hrdf, by simp [hrrf]⟩
      refine ⟨⟨r, ⟨⟨hrf, hmin⟩, by simpa using hzero⟩, rfl⟩, ?_⟩
      exact_mod_cast hpos
  · intro c hc
    simp only [identifyNdTransferCandidatesC, List.mem_filter, List.mem_map,
      decide_eq_true_eq] at hc
    obtain ⟨⟨x, hx, rfl⟩, hpos⟩ := hc
    rfl
  · intro c hc
    simp only [identifyRfTransferCandidatesC, List.mem_filter, List.mem_map,
      decide_eq_true_eq] at hc
    obtain ⟨⟨x, hx, rfl⟩, hpos⟩ := hc
    rfl

/-- The error list of `check_recommendations` is empty exactly when every
recommendation satisfies the four checked invariants (positivity, stock bound,
distinct sites, 12-character article). -/
theorem checkRecommendationsAux_eq_nil_iff (i : Nat) (recs : List Recommendation) :
    checkRecommendationsAux i recs = [] ↔
      ∀ rec ∈ recs, 0 < rec.transferQty ∧
        rec.transferQty ≤ rec.transferSiteOriginalStock ∧
        rec.transferSite ≠ rec.receiveSite ∧ rec.article.length = 12 := by
  induction recs generalizing i with
  | nil => simp [checkRecommendationsAux]
  | cons rec rest ih =>
    simp only [checkRecommendationsAux, List.append_eq_nil, List.mem_cons]
    constructor
    · rintro ⟨⟨⟨⟨h1, h2⟩, h3⟩, h4⟩, h5⟩
      intro x hx
      rcases hx with rfl | hx
      · refine ⟨?_, ?_, ?_, ?_⟩
        · by_contra hq
          rw [if_pos (by omega)] at h1
          simp at h1
        · by_contra hq
          rw [if_pos (by omega)] at h2
          simp at h2
        · intro hq
          rw [if_pos (by simp [hq])] at h3
          simp at h3
        · by_contra hq
          rw [if_pos hq] at h4
          simp at h4
      · exact (ih (i + 1)).mp h5 x hx
    · intro h
      obtain ⟨h1, h2, h3, h4⟩ := h rec (Or.inl rfl)
      refine ⟨⟨⟨⟨?_, ?_⟩, ?_⟩, ?_⟩, (ih (i + 1)).mpr (fun x hx => h x (Or.inr hx))⟩
      · rw [if_neg (by omega)]
      · rw [if_neg (by omega)]
      · rw [if_neg (by simpa using h3)]
      · rw [if_neg (by simpa using h4)]

/-- The Recommendation of the C9 counterexample: its Article is a 12-character
string containing a non-digit. -/
def recC9 : Recommendation :=
  ⟨"12345678901X", "desc", "OM1", "HA11", "OM1", "HA22", 1, 5, 4, 0, 0, 0, 0, 0, 0, 0,
    "remark", "notes"⟩

/-- C9 counterexample.  A batch whose only recommendation carries the
12-character non-numeric Article "12345678901X" passes the quality check: the
checker tests only that the Article is a string of length 12 and never
inspects the characters. -/
theorem articleFormat_C9_counterexample :
    (checkRecommendations [recC9]).1 = true ∧
    recC9.article.length = 12 ∧
    recC9.article.toList.all Char.isDigit = false := by decide

/-- C9 (amended).  The quality check passes exactly when every recommendation
has a positive Transfer Qty bounded by the transfer side's original stock,
distinct transfer and receive sites, and an Article that is a string of
exactly 12 characters (digit content is not checked); in particular any
recommendation whose Article length differs from 12 fails the whole batch. -/
theorem articleFormat_rule_C9 (recs : List Recommendation) :
    ((checkRecommendations recs).1 = true ↔
      ∀ rec ∈ recs, 0 < rec.transferQty ∧
        rec.transferQty ≤ rec.transferSiteOriginalStock ∧
        rec.transferSite ≠ rec.receiveSite ∧ rec.article.length = 12) ∧
    (∀ rec ∈ recs, rec.article.length ≠ 12 → (checkRecommendations recs).1 = false) := by
  have hmain : (checkRecommendations recs).1 = true ↔
      ∀ rec ∈ recs, 0 < rec.transferQty ∧
        rec.transferQty ≤ rec.transferSiteOriginalStock ∧
        rec.transferSite ≠ rec.receiveSite ∧ rec.article.length = 12 := by
    unfold checkRecommendations
    rw [List.isEmpty_iff]
    exact checkRecommendationsAux_eq_nil_iff 0 recs
  refine ⟨hmain, ?_⟩
  intro rec hrec hlen
  by_contra hck
  rw [Bool.not_eq_false] at hck
  exact hlen ((hmain.mp hck) rec hrec).2.2.2

/-! ### Concrete witness data -/

def defaultRow : StockRow := ⟨"", "", "", "", "", 0, 0, 0, 0, 0, 0⟩

def defaultTC : TransferCandidate := ⟨defaultRow, TransferType.ND_TRANSFER, 0, 0⟩

def defaultRC : ReceiveCandidate := ⟨defaultRow, ReceivePriority.URGENT_SHORTAGE, 0, 0⟩

def defaultRecommendation : Recommendation := createRecommendation defaultTC defaultRC 0

def defaultStep : MatchStep := ⟨0, 0, defaultRecommendation⟩

def defaultTrace : TransferTrace := ⟨defaultTC, defaultTC, []⟩

/-- An ND site with 5 units and an RF site in urgent shortage (sold 3, safety
4) for the same article; mode A produces two recommendations (quantities 4 and
1) from the single ND candidate. -/
def rowW1t : StockRow := ⟨"000000000001", "desc", "OM1", "ND", "HA11", 0, 5, 0, 0, 0, 0⟩

def rowW1r : StockRow := ⟨"000000000001", "desc", "OM1", "RF", "HA22", 0, 0, 0, 4, 3, 0⟩

def dfW1 : List StockRow := [rowW1t, rowW1r]

/-- An RF surplus site (stock 10, safety 2, sold 0) and the article's best
seller in urgent shortage; mode A produces one RF-surplus recommendation. -/
def rowW2t : StockRow := ⟨"000000000003", "desc", "OM1", "RF", "HA11", 0, 10, 0, 2, 0, 0⟩

def rowW2r : StockRow := ⟨"000000000003", "desc", "OM1", "RF", "HA22", 0, 0, 0, 4, 5, 0⟩

def dfW2 : List StockRow := [rowW2t, rowW2r]

/-- A mode-C input where the (OM, Article)-minimum RF row has positive sales:
no transfer candidates arise and the call succeeds with an empty batch. -/
def dfC7c : List StockRow :=
  [⟨"000000000004", "desc", "OM1", "RF", "HB11", 0, 7, 0, 2, 1, 0⟩,
   ⟨"000000000004", "desc", "OM1", "RF", "HB22", 0, 3, 0, 2, 4, 1⟩]

/-- An RF row with zero sales for the mode-C witness. -/
def rowW4rf : StockRow := ⟨"000000000002", "desc", "OM1", "RF", "HB22", 0, 7, 0, 2, 0, 0⟩

def dfW4 : List StockRow := [rowC4, rowW4rf]

/-- Witness for C1 at a concrete successful mode-A run. -/
theorem stockBound_C1_witness :
    (generateTransferRecommendations dfW1 "A").isOk = true ∧
    (∀ rec ∈ (generateTransferRecommendations dfW1 "A").recommendations,
        rec.transferQty ≤ rec.transferSiteOriginalStock) ∧
    (∀ tr ∈ executeMatchingTrace (transferCandidatesFor dfW1 "A")
        (receiveCandidatesAll dfW1),
        stepsQtySum tr.steps ≤ tr.init.originalStock) :=
  ⟨by decide, (stockBound_C1 dfW1 "A" (by decide)).1, (stockBound_C1 dfW1 "A" (by decide)).2⟩

/-- The first trace and its first step of the C2 witness run. -/
def trW2 : TransferTrace :=
  (executeMatchingTrace (transferCandidatesFor dfW2 "A")
    (receiveCandidatesAll dfW2)).getD 0 defaultTrace

def mW2 : MatchStep := trW2.steps.getD 0 defaultStep

/-- Witness for C2: a concrete mode-A RF-surplus trace whose committed step
keeps the transfer site at or above its safety stock. -/
theorem modeA_safety_floor_C2_witness :
    trW2 ∈ executeMatchingTrace (transferCandidatesFor dfW2 "A")
      (receiveCandidatesAll dfW2) ∧
    trW2.init.transferType = TransferType.RF_SURPLUS_TRANSFER ∧
    mW2 ∈ trW2.steps ∧
    (trW2.init.row.safetyStock : Int) ≤
      mW2.recommendation.transferSiteOriginalStock +
        (trW2.init.row.pendingReceived : Int) - mW2.recommendation.transferQty :=
  ⟨by decide, by decide, by decide,
    modeA_safety_floor_C2 dfW2 trW2 (by decide) (by decide) mW2 (by decide)⟩

/-- Witness for C5 at the concrete mode-A candidates of `dfW1`. -/
theorem conservation_C5_witness :
    (∀ tr ∈ executeMatchingTrace (transferCandidatesFor dfW1 "A")
        (receiveCandidatesAll dfW1),
        tr.final.availableQuantity = tr.init.availableQuantity - stepsQtySum tr.steps ∧
        0 ≤ tr.final.availableQuantity ∧
        ∀ m ∈ tr.steps, m.recommendation.transferQty = m.qty ∧ 0 < m.qty) ∧
    (∀ j, ((executeMatchingFull (transferCandidatesFor dfW1 "A")
          (receiveCandidatesAll dfW1)).1)[j]? =
        ((receiveCandidatesAll dfW1)[j]?).map (fun r : ReceiveCandidate =>
          { r with demandQuantity := r.demandQuantity -
              tracesQtySumAt j (executeMatchingTrace (transferCandidatesFor dfW1 "A")
                (receiveCandidatesAll dfW1)) })) ∧
    (∀ r' ∈ (executeMatchingFull (transferCandidatesFor dfW1 "A")
        (receiveCandidatesAll dfW1)).1, 0 ≤ r'.demandQuantity) :=
  conservation_C5 (transferCandidatesFor dfW1 "A") (receiveCandidatesAll dfW1)
    (by decide) (by decide)

/-- The first emitted recommendation of the C6 witness run. -/
def recW6 : Recommendation :=
  (executeMatching (transferCandidatesFor dfW1 "A")
    (receiveCandidatesAll dfW1)).getD 0 defaultRecommendation

/-- Witness for C6 at a concrete emitted recommendation. -/
theorem hdOneWay_C6_witness :
    recW6 ∈ executeMatching (transferCandidatesFor dfW1 "A")
      (receiveCandidatesAll dfW1) ∧
    ¬(sitePrefix recW6.transferSite = "HD" ∧
      (sitePrefix recW6.receiveSite = "HA" ∨ sitePrefix recW6.receiveSite = "HB" ∨
       sitePrefix recW6.receiveSite = "HC")) :=
  ⟨by decide,
    hdOneWay_C6 (transferCandidatesFor dfW1 "A") (receiveCandidatesAll dfW1)
      recW6 (by decide)⟩

/-- Witness for C7: a rejected mode token, a successful empty input, and a
successful mode-C input whose group-minimum RF row has positive sales. -/
theorem errorTaxonomy_C7_witness :
    generateTransferRecommendations dfW1 "X" = GenResult.error invalidModeMsg ∧
    generateTransferRecommendations [] "B" = GenResult.ok [] zeroStatistics ∧
    generateTransferRecommendations dfC7c "C" =
      GenResult.ok (executeMatching (transferCandidatesFor dfC7c "C")
          (receiveCandidatesAll dfC7c))
        (generateStatistics (executeMatching (transferCandidatesFor dfC7c "C")
          (receiveCandidatesAll dfC7c))) :=
  ⟨(errorTaxonomy_C7 dfW1 "X").1 (by decide),
   (errorTaxonomy_C7 ([] : List StockRow) "B").2.2.2 rfl (Or.inr (Or.inl rfl)),
   ((errorTaxonomy_C7 dfC7c "C").2.1 (Or.inr (Or.inr rfl))).2 (by decide)⟩

/-- The second recommendation, first trace and second step of the C10 witness
run (the single ND candidate commits quantity 4, then quantity 1). -/
def recW10 : Recommendation :=
  ((generateTransferRecommendations dfW1 "A").recommendations).getD 1
    defaultRecommendation

def trW10 : TransferTrace :=
  (executeMatchingTrace (transferCandidatesFor dfW1 "A")
    (receiveCandidatesAll dfW1)).getD 0 defaultTrace

def mW10 : MatchStep := trW10.steps.getD 1 defaultStep

/-- Witness for C10 at a trace with two committed steps: the second step's
after-transfer stock is computed from the immutable snapshot, ignoring the
first step's committed quantity. -/
theorem afterStock_C10_witness :
    (recW10 ∈ (generateTransferRecommendations dfW1 "A").recommendations ∧
      recW10.transferSiteAfterTransferStock =
        recW10.transferSiteOriginalStock - recW10.transferQty ∧
      0 ≤ recW10.transferSiteAfterTransferStock) ∧
    (trW10 ∈ executeMatchingTrace (transferCandidatesFor dfW1 "A")
        (receiveCandidatesAll dfW1) ∧
      mW10 ∈ trW10.steps ∧
      mW10.recommendation.transferSiteAfterTransferStock =
        trW10.init.originalStock - mW10.qty) :=
  ⟨⟨by decide, (afterStock_C10 dfW1 "A").1 recW10 (by decide)⟩,
   ⟨by decide, by decide,
    (afterStock_C10 dfW1 "A").2 trW10 (by decide) mW10 (by decide)⟩⟩

/-- Witness for the amended C3 at the concrete RF row of `dfW1`. -/
theorem potentialShortage_rule_C3_witness :
    ((∃ c ∈ identifyPotentialShortageCandidates dfW1, c.row = rowW1r) ↔
      (rowW1r.sasaNetStock + rowW1r.pendingReceived < rowW1r.safetyStock ∧
       effectiveSoldQty rowW1r = maxSoldPerArticle (rfRows dfW1) rowW1r.article)) ∧
    (∀ c ∈ identifyPotentialShortageCandidates dfW1, c.row = rowW1r →
      c.demandQuantity = (rowW1r.safetyStock : Int) -
        ((rowW1r.sasaNetStock : Int) + (rowW1r.pendingReceived : Int)) ∧
      c.receivePriority = ReceivePriority.POTENTIAL_SHORTAGE) :=
  potentialShortage_rule_C3 dfW1 rowW1r (by decide)

/-- Witness for the amended C4: a positive-sales ND row is a mode-C candidate,
and a zero-sales group-minimum RF row is a mode-C candidate. -/
theorem modeC_rule_C4_witness :
    (∃ c ∈ identifyNdTransferCandidatesC dfW4, c.row = rowC4) ∧
    (∃ c ∈ identifyRfTransferCandidatesC dfW4, c.row = rowW4rf) :=
  ⟨((modeC_rule_C4 dfW4).1 rowC4 (by decide) (by decide)).mpr (by decide),
   ((modeC_rule_C4 dfW4).2.1 rowW4rf (by decide) (by decide)).mpr (by decide)⟩

/-- A fully valid recommendation and one with a short Article. -/
def recW9 : Recommendation :=
  ⟨"000000000001", "desc", "OM1", "HA11", "OM1", "HA22", 2, 5, 3, 0, 0, 0, 0, 0, 0, 0,
    "remark", "notes"⟩

def recW9bad : Recommendation :=
  ⟨"12345", "desc", "OM1", "HA11", "OM1", "HA22", 2, 5, 3, 0, 0, 0, 0, 0, 0, 0,
    "remark", "notes"⟩

/-- Witness for the amended C9: a valid batch passes, and a batch containing a
recommendation whose Article is not 12 characters long fails. -/
theorem articleFormat_rule_C9_witness :
    (checkRecommendations [recW9]).1 = true ∧
    (checkRecommendations [recW9, recW9bad]).1 = false :=
  ⟨((articleFormat_rule_C9 [recW9]).1).mpr (by decide),
   (articleFormat_rule_C9 [recW9, recW9bad]).2 recW9bad (by decide) (by decide)⟩

end MORealloc
